import Mathlib

/-!
Verification development for the recipe-structuring pipeline
(`scripts/unify_recipes.py` and `structure_recipes.py`).

The Python source is shallowly embedded: text is a `String` (a list of
characters), Python's line lists are `List String`, Python dicts are
association lists in insertion order, and every function is a computable
Lean `def` mirroring the corresponding Python function line by line.
Case conversion (`upper`/`lower`/`isupper`/`title`) is embedded with the
ASCII semantics of Lean's `Char` functions; the Python originals use
Unicode case folding, which coincides on ASCII input.
-/

set_option maxRecDepth 20000

/-! ## String primitives (embedding Python's str operations) -/

/-- Characters of a string. -/
def chs (s : String) : List Char := s.data

/-- String from characters. -/
def ofChs (cs : List Char) : String := ⟨cs⟩

/-- Python `s.startswith(p)`. -/
def sw (s p : String) : Bool := p.data.isPrefixOf s.data

/-- Python `s.startswith((p1, p2, ...))`. -/
def swAny (s : String) (ps : List String) : Bool := ps.any (fun p => sw s p)

/-- Python `s.endswith(p)`. -/
def ew (s p : String) : Bool := p.data.reverse.isPrefixOf s.data.reverse

/-- Whether `needle` occurs as a contiguous sub-list of `hay`. -/
def seqInList (needle : List Char) : List Char → Bool
  | [] => needle.isEmpty
  | c :: t => needle.isPrefixOf (c :: t) || seqInList needle t

/-- Python `sub in s` (substring containment). -/
def sContains (s sub : String) : Bool := seqInList sub.data s.data

/-- Index of the first occurrence of `needle` in `hay`, if any. -/
def idxOfSeq (needle : List Char) : List Char → Option Nat
  | [] => if needle.isEmpty then some 0 else none
  | c :: t =>
    if needle.isPrefixOf (c :: t) then some 0
    else (idxOfSeq needle t).map (· + 1)

/-- Python `len(s)` (number of characters). -/
def sLen (s : String) : Nat := s.data.length

/-- Python `s == ''` falsiness test. -/
def sIsEmpty (s : String) : Bool := s.data.isEmpty

/-- Python `s.lower()` (ASCII). -/
def sLower (s : String) : String := ⟨s.data.map Char.toLower⟩

/-- Python `s.upper()` (ASCII). -/
def sUpper (s : String) : String := ⟨s.data.map Char.toUpper⟩

/-- Strip whitespace from both ends of a character list. -/
def trimChars (cs : List Char) : List Char :=
  ((cs.dropWhile Char.isWhitespace).reverse.dropWhile Char.isWhitespace).reverse

/-- Python `s.strip()`. -/
def sTrim (s : String) : String := ⟨trimChars s.data⟩

/-- Python `s[n:]` (drop the first `n` characters). -/
def sDropChars (s : String) (n : Nat) : String := ⟨s.data.drop n⟩

/-- Python `s[:n]` (take the first `n` characters). -/
def sTakeChars (s : String) (n : Nat) : String := ⟨s.data.take n⟩

/-- Python `s[-n:]` (the last `n` characters). -/
def sLastChars (s : String) (n : Nat) : String := ⟨s.data.drop (s.data.length - n)⟩

/-- Split a character list at every occurrence of one character
(Python `s.split(c)`, which keeps empty pieces). -/
def splitChar (sep : Char) : List Char → List (List Char)
  | [] => [[]]
  | c :: rest =>
    match splitChar sep rest with
    | [] => [[]]
    | l :: ls => if c = sep then [] :: l :: ls else (c :: l) :: ls

/-- Python `text.strip().split('\n')`, the line-list form used throughout
the source. -/
def splitLines (text : String) : List String :=
  (splitChar '\n' (trimChars text.data)).map ofChs

/-- Python `'\n'.join(lines)`. -/
def joinNl : List String → String
  | [] => ""
  | [s] => s
  | s :: rest => s ++ "\n" ++ joinNl rest

/-- Python `' '.join(lines)`. -/
def joinSpace : List String → String
  | [] => ""
  | [s] => s
  | s :: rest => s ++ " " ++ joinSpace rest

/-- Caseless prefix test: `pat` (given in lowercase) against the start of
`cs`, comparing lowercased characters (regex `re.IGNORECASE` matching of a
literal). -/
def clStarts : List Char → List Char → Bool
  | [], _ => true
  | _ :: _, [] => false
  | p :: ps, c :: cs => p == c.toLower && clStarts ps cs

/-- Python `s.isupper()` (ASCII): at least one letter and no lowercase
letter. -/
def pyIsUpper (s : String) : Bool :=
  s.data.any Char.isAlpha && s.data.all (fun c => !c.isLower)

/-- Title-case a character list (Python `str.title()`, ASCII): the first
letter of every letter-run is uppercased, the rest lowercased. -/
def titleChars : Bool → List Char → List Char
  | _, [] => []
  | prevAlpha, c :: rest =>
    if c.isAlpha then
      (if prevAlpha then c.toLower else c.toUpper) :: titleChars true rest
    else
      c :: titleChars false rest

/-- Python `s.title()`. -/
def pyTitle (s : String) : String := ⟨titleChars false s.data⟩

/-- Python `s.lstrip('#')`. -/
def lstripHash (s : String) : String := ⟨s.data.dropWhile (· == '#')⟩

/-- Python `s.rstrip(':')`. -/
def rstripColon (s : String) : String := ⟨(s.data.reverse.dropWhile (· == ':')).reverse⟩

/-- Remove every occurrence of `".txt"` (Python `filename.replace('.txt', '')`). -/
def removeTxt : List Char → List Char
  | '.' :: 't' :: 'x' :: 't' :: rest => removeTxt rest
  | c :: rest => c :: removeTxt rest
  | [] => []

/-- Python truthiness of an optional string (`None` and `''` are falsy). -/
def optTruthy : Option String → Bool
  | none => false
  | some s => !sIsEmpty s

/-- Python `first or second` for an optional string. -/
def orElseStr (t : Option String) (alt : String) : String :=
  match t with
  | some s => if sIsEmpty s then alt else s
  | none => alt

/-! ## `unify_recipes.py`: title extraction -/

/-- Regex `RECIPE FOR:\s*(.+)` with `re.IGNORECASE`, searched in one line:
the text after the first caseless occurrence of the marker, stripped;
`none` when the marker is absent or nothing follows it (the regex group
`(.+)` needs at least one character). -/
def recipeForRest (l : String) : Option String :=
  match idxOfSeq "RECIPE FOR:".data (sUpper l).data with
  | none => none
  | some i =>
    let rest := l.data.drop (i + 11)
    if rest.isEmpty then none else some ⟨trimChars rest⟩

/-- First scan of `extract_recipe_title` over the first 10 lines: skip
empty/link/image lines; a `"# "` heading returns its text; a
`"RECIPE FOR:"` marker returns the marker text. -/
def titleLoop1 : List String → Option String
  | [] => none
  | line :: rest =>
    let l := sTrim line
    if sIsEmpty l || sw l "http" || sw l "![" then titleLoop1 rest
    else if sw l "# " then some (sTrim (sDropChars l 2))
    else if sContains (sUpper l) "RECIPE FOR:" then
      match recipeForRest l with
      | some t => some t
      | none => titleLoop1 rest
    else titleLoop1 rest

/-- Regex `^(W/\s*)` removal (`re.sub`) in the fallback title scan. -/
def stripWSlash (l : String) : String :=
  if sw l "W/" then ⟨(l.data.drop 2).dropWhile Char.isWhitespace⟩ else l

/-- Fallback scan of `extract_recipe_title` over the first 5 lines: first
non-empty line that does not start with markup and is longer than 3
characters, with the `W/` noise prefix stripped. -/
def titleLoop2 : List String → Option String
  | [] => none
  | line :: rest =>
    let l := sTrim line
    if !sIsEmpty l && !swAny l ["http", "!", "|", "-", "*", "#"] && decide (3 < sLen l) then
      let l2 := stripWSlash l
      if decide (3 < sLen l2) then some l2 else titleLoop2 rest
    else titleLoop2 rest

/-- `extract_recipe_title` from `unify_recipes.py`. -/
def extract_recipe_title (text : String) : Option String :=
  let lines := splitLines text
  match titleLoop1 (lines.take 10) with
  | some t => some t
  | none => titleLoop2 (lines.take 5)

/-! ## `unify_recipes.py`: continuation classification -/

/-- The raw first line (`lines[0]`; Python's `''.split('\n')` is `['']`,
so the list is never empty). -/
def firstLineRaw (text : String) : String := (splitLines text).headD ""

/-- `lines[0].strip().lower()`. -/
def firstLineLow (text : String) : String := sLower (sTrim (firstLineRaw text))

/-- `'\n'.join(lines[:5]).lower()`. -/
def first5Low (text : String) : String := sLower (joinNl ((splitLines text).take 5))

/-- `'\n'.join(lines[:10]).lower()`. -/
def first10Low (text : String) : String := sLower (joinNl ((splitLines text).take 10))

/-- Regex `^\d+\.` on the stripped first line: one or more digits followed
by a period. -/
def signNumberedStep (text : String) : Bool :=
  let l := (sTrim (firstLineRaw text)).data
  let ds := l.takeWhile Char.isDigit
  !ds.isEmpty && (match l.drop ds.length with | '.' :: _ => true | _ => false)

/-- First line starts with a step header. -/
def signStepHeader (text : String) : Bool :=
  swAny (firstLineLow text) ["## step", "### step"]

/-- First line starts with an imperative cooking verb. -/
def signVerbStart (text : String) : Bool :=
  swAny (firstLineLow text)
    ["once ", "pour ", "add ", "cook ", "stir ", "heat ", "mix ", "place ", "meanwhile"]

/-- A step sub-heading in the first 5 lines with no `"# "` in their first
20 characters. -/
def signStepNoTitle (text : String) : Bool :=
  sContains (first5Low text) "## step" && !sContains (sTakeChars (first5Low text) 20) "# "

/-- First line starts with an explicit mid-recipe step number 3–9. -/
def signMidStep (text : String) : Bool :=
  swAny (firstLineLow text) ["3.", "4.", "5.", "6.", "7.", "8.", "9."]

/-- The first 5 lines start with `"step "`. -/
def signStepPrefixed (text : String) : Bool := sw (first5Low text) "step "

/-- First line is a bare URL and no `"# "` occurs in the first 10 lines. -/
def signBareUrl (text : String) : Bool :=
  (sw (firstLineLow text) "http://" || sw (firstLineLow text) "https://")
    && !sContains (first10Low text) "# "

/-- First line begins with a lowercase character. -/
def signLowercaseStart (text : String) : Bool :=
  match (sTrim (firstLineRaw text)).data with
  | c :: _ => c.isLower
  | [] => false

/-- The `continuation_signs` disjunction of `looks_like_continuation`. -/
def continuationSigns (text : String) : Bool :=
  signNumberedStep text || signStepHeader text || signVerbStart text
    || signStepNoTitle text || signMidStep text || signStepPrefixed text
    || signBareUrl text || signLowercaseStart text

/-- Regex `^\s*#\s+[A-Z]` on the raw first line. -/
def nrHeadingCapital (l : String) : Bool :=
  match l.data.dropWhile Char.isWhitespace with
  | '#' :: rest =>
    let w := rest.takeWhile Char.isWhitespace
    !w.isEmpty && (match rest.drop w.length with | c :: _ => c.isUpper | [] => false)
  | _ => false

/-- The `new_recipe_signs` disjunction of `looks_like_continuation`. -/
def newRecipeSigns (text : String) : Bool :=
  let lines := splitLines text
  let l0 := lines.headD ""
  (sContains (joinNl (lines.take 3)) "# "
      && !sContains (sLower l0) "step" && !sContains (sLower l0) "instructions")
    || (sContains (first5Low text) "prep time" && sContains (first5Low text) "cook time")
    || sContains (first5Low text) "## ingredients"
    || sContains (first5Low text) "recipe for:"
    || nrHeadingCapital l0

/-- `looks_like_continuation` from `unify_recipes.py`. -/
def looks_like_continuation (text : String) : Bool :=
  continuationSigns text && !newRecipeSigns text

/-! ## `unify_recipes.py`: ending detection -/

/-- `has_recipe_ending` from `unify_recipes.py`. -/
def has_recipe_ending (text : String) : Bool :=
  let lowerText := sLower text
  let last500 := if decide (500 < sLen lowerText) then sLastChars lowerText 500 else lowerText
  sContains lowerText "## notes"
    || sContains lowerText "## nutrition"
    || sContains last500 "calories:"
    || (sContains last500 "serving:"
        && (sContains last500 "calories" || sContains last500 "carbohydrates"))
    || sContains last500 "find it online:"
    || sContains last500 "recipe from"
    || (sContains last500 "can be made" && sContains last500 "ahead")

/-! ## `unify_recipes.py`: the aggregator -/

/-- One OCR page document: the file name, its stem, and its text. Reading
the text by name is the external input collaborator, so the page carries
its text directly. -/
structure Page where
  name : String
  stem : String
  text : String
deriving DecidableEq, Repr

/-- One recipe bundle produced by `analyze_files`: the title, the ordered
pages, and the completeness flag. -/
structure Recipe where
  title : String
  files : List Page
  complete : Bool
deriving DecidableEq, Repr

/-- The page loop of `analyze_files`: fold over the page stream carrying
the open bundle. A page opens a new bundle when no bundle is open, or when
it is not a continuation and a truthy title was extracted; otherwise it is
appended to the open bundle, propagating the ending flag. -/
def analyzeGo : List Page → Option Recipe → List Recipe
  | [], none => []
  | [], some r => [r]
  | f :: rest, cur =>
    let title := extract_recipe_title f.text
    let isCont := looks_like_continuation f.text
    let hasEnd := has_recipe_ending f.text
    match cur with
    | none => analyzeGo rest (some ⟨orElseStr title f.stem, [f], hasEnd⟩)
    | some r =>
      if !isCont && optTruthy title then
        r :: analyzeGo rest (some ⟨orElseStr title f.stem, [f], hasEnd⟩)
      else
        analyzeGo rest (some ⟨r.title, r.files ++ [f], r.complete || hasEnd⟩)

/-- `analyze_files` from `unify_recipes.py`, over the already-sorted page
stream (directory listing and lexicographic sorting are the external input
collaborator). -/
def analyze_files (files : List Page) : List Recipe := analyzeGo files none

/-- Concatenation of the bundles' page lists in bundle order. -/
def bundledPages (rs : List Recipe) : List Page := (rs.map Recipe.files).flatten

/-! ## Aggregator lemmas -/

theorem bundledPages_cons (r : Recipe) (rs : List Recipe) :
    bundledPages (r :: rs) = r.files ++ bundledPages rs := by
  simp [bundledPages]

theorem analyzeGo_pages : ∀ (files : List Page) (cur : Option Recipe),
    bundledPages (analyzeGo files cur)
      = (match cur with | none => [] | some r => r.files) ++ files := by
  intro files
  induction files with
  | nil => intro cur; cases cur <;> simp [analyzeGo, bundledPages]
  | cons f rest ih =>
    intro cur
    cases cur with
    | none =>
      simp only [analyzeGo, ih]
      simp
    | some r =>
      cases hc : (!looks_like_continuation f.text && optTruthy (extract_recipe_title f.text)) with
      | true =>
        simp only [analyzeGo, hc, if_true, bundledPages_cons, ih]
        simp
      | false =>
        simp only [analyzeGo, hc, Bool.false_eq_true, if_false, ih]
        simp

theorem analyzeGo_files_ne_nil : ∀ (files : List Page) (cur : Option Recipe),
    (∀ r, cur = some r → r.files ≠ []) →
    ∀ b ∈ analyzeGo files cur, b.files ≠ [] := by
  intro files
  induction files with
  | nil =>
    intro cur h b hb
    cases cur with
    | none => simp [analyzeGo] at hb
    | some r =>
      simp [analyzeGo] at hb
      exact hb ▸ h r rfl
  | cons f rest ih =>
    intro cur h b hb
    cases cur with
    | none =>
      simp only [analyzeGo] at hb
      exact ih _ (by intro r hr; cases hr; simp) b hb
    | some r =>
      cases hc : (!looks_like_continuation f.text && optTruthy (extract_recipe_title f.text)) with
      | true =>
        simp only [analyzeGo, hc, if_true, List.mem_cons] at hb
        rcases hb with hb | hb
        · exact hb ▸ h r rfl
        · exact ih _ (by intro r' hr'; cases hr'; simp) b hb
      | false =>
        simp only [analyzeGo, hc, Bool.false_eq_true, if_false] at hb
        exact ih _ (by intro r' hr'; cases hr'; simp) b hb

theorem analyzeGo_complete : ∀ (files : List Page) (cur : Option Recipe),
    (∀ r, cur = some r → r.complete = r.files.any (fun p => has_recipe_ending p.text)) →
    ∀ b ∈ analyzeGo files cur,
      b.complete = b.files.any (fun p => has_recipe_ending p.text) := by
  intro files
  induction files with
  | nil =>
    intro cur h b hb
    cases cur with
    | none => simp [analyzeGo] at hb
    | some r =>
      simp [analyzeGo] at hb
      exact hb ▸ h r rfl
  | cons f rest ih =>
    intro cur h b hb
    cases cur with
    | none =>
      simp only [analyzeGo] at hb
      refine ih _ ?_ b hb
      intro r hr; cases hr; simp
    | some r =>
      cases hc : (!looks_like_continuation f.text && optTruthy (extract_recipe_title f.text)) with
      | true =>
        simp only [analyzeGo, hc, if_true, List.mem_cons] at hb
        rcases hb with hb | hb
        · exact hb ▸ h r rfl
        · refine ih _ ?_ b hb
          intro r' hr'; cases hr'; simp
      | false =>
        simp only [analyzeGo, hc, Bool.false_eq_true, if_false] at hb
        refine ih _ ?_ b hb
        intro r' hr'; cases hr'
        simp [List.any_append, h r rfl]

/-! ## Claims about the aggregator -/

/-- C1: for every finite page sequence (in particular one presented in
lexicographic order), the bundles produced by `analyze_files` partition
the input exactly — concatenating the bundles' page lists in bundle order
reproduces the input sequence with no page omitted, duplicated, or
reordered — and every bundle contains at least one page. -/
theorem claim1_bundles_partition (files : List Page) :
    bundledPages (analyze_files files) = files
      ∧ (analyze_files files).all (fun b => !b.files.isEmpty) = true := by
  constructor
  · have h := analyzeGo_pages files none
    simpa [analyze_files] using h
  · rw [List.all_eq_true]
    intro b hb
    have h := analyzeGo_files_ne_nil files none (by intro r hr; cases hr) b hb
    simpa [List.isEmpty_iff] using h

/-- C9: the completeness flag of every bundle produced by `analyze_files`
equals "some page of the bundle signals a recipe ending": once any page
(including the first) signals an ending the bundle is and stays complete,
and a bundle none of whose pages signals an ending closes with
`complete = false`. -/
theorem claim9_complete_monotonic (files : List Page) :
    (analyze_files files).all
      (fun b => b.complete == b.files.any (fun p => has_recipe_ending p.text)) = true := by
  rw [List.all_eq_true]
  intro b hb
  have h := analyzeGo_complete files none (by intro r hr; cases hr) b hb
  simpa using h

/-- C4 counterexample: a page whose first line is the step numbered 1,
with every other continuation signal false, is still classified as a
continuation — the numbered-step signal fires for steps 1 and 2 as well. -/
theorem claim4_counterexample :
    signNumberedStep "1. Mix the flour" = true
      ∧ (signStepHeader "1. Mix the flour" || signVerbStart "1. Mix the flour"
          || signStepNoTitle "1. Mix the flour" || signMidStep "1. Mix the flour"
          || signStepPrefixed "1. Mix the flour" || signBareUrl "1. Mix the flour"
          || signLowercaseStart "1. Mix the flour") = false
      ∧ looks_like_continuation "1. Mix the flour" = true := by
  decide

/-- C4 (amended): a first line that is a numbered step is a continuation
signal for every step number, including 1 and 2: whenever the first line
matches the numbered-step pattern and no new-recipe signal holds, the page
is classified as a continuation. -/
theorem claim4_numbered_step (text : String)
    (h1 : signNumberedStep text = true) (h2 : newRecipeSigns text = false) :
    looks_like_continuation text = true := by
  simp [looks_like_continuation, continuationSigns, h1, h2]

/-- Witness for C4 at the concrete page "2. Stir the pot". -/
theorem claim4_numbered_step_witness :
    signNumberedStep "2. Stir the pot" = true
      ∧ newRecipeSigns "2. Stir the pot" = false
      ∧ looks_like_continuation "2. Stir the pot" = true :=
  ⟨by decide, by decide, claim4_numbered_step "2. Stir the pot" (by decide) (by decide)⟩

/-- C5 counterexample: a document containing both a top-level heading and a
"RECIPE FOR:" marker within its first ten lines returns the heading text,
not the marker text. -/
theorem claim5_counterexample :
    extract_recipe_title "# Cake\nRECIPE FOR: Pie" = some "Cake"
      ∧ extract_recipe_title "# Cake\nRECIPE FOR: Pie" ≠ some "Pie" := by
  decide

/-- C5 (amended): the title scan checks each of the first ~10 lines in
order, testing the heading signal before the marker signal on every line;
hence the signal whose line occurs first wins (a heading line at or before
the marker line yields the heading text, and the marker text is returned
only when its line precedes any heading line). The fallback scan is
unchanged. -/
theorem claim5_line_priority :
    (∀ l rest, sTrim l = l → sIsEmpty l = false → sw l "http" = false →
        sw l "![" = false → sw l "# " = true →
        titleLoop1 (l :: rest) = some (sTrim (sDropChars l 2)))
    ∧ (∀ l rest t, sTrim l = l → sIsEmpty l = false → sw l "http" = false →
        sw l "![" = false → sw l "# " = false →
        sContains (sUpper l) "RECIPE FOR:" = true → recipeForRest l = some t →
        titleLoop1 (l :: rest) = some t) := by
  constructor
  · intro l rest htrim h1 h2 h3 h4
    simp only [titleLoop1, htrim, h1, h2, h3, h4]
    simp
  · intro l rest t htrim h1 h2 h3 h4 h5 h6
    simp only [titleLoop1, htrim, h1, h2, h3, h4, h5, h6]
    simp

/-- Witness for C5: the heading line wins when it comes first, and the
marker wins when its line comes first. -/
theorem claim5_line_priority_witness :
    titleLoop1 ["# Cake", "RECIPE FOR: Pie"] = some (sTrim (sDropChars "# Cake" 2))
      ∧ titleLoop1 ["RECIPE FOR: Pie", "# Cake"] = some "Pie" :=
  ⟨claim5_line_priority.1 "# Cake" ["RECIPE FOR: Pie"]
      (by decide) (by decide) (by decide) (by decide) (by decide),
   claim5_line_priority.2 "RECIPE FOR: Pie" ["# Cake"] "Pie"
      (by decide) (by decide) (by decide) (by decide) (by decide) (by decide) (by decide)⟩

/-! ## `structure_recipes.py`: name, description, times, servings, source -/

/-- The generic section labels rejected as titles in `extract_name`. -/
def sectionHeaderNames : List String :=
  ["ingredients", "instructions", "directions", "notes", "steps",
   "equipment", "preparation", "nutrition", "method", "tips"]

/-- The website names rejected as titles in `extract_name`. -/
def knownSiteNames : List String :=
  ["eatingwell", "epicurious", "food52", "food&wine", "allrecipes"]

/-- First scan of `extract_name` over the first 10 lines: the
"RECIPE FOR:" regex on each raw line. -/
def nameLoop1 : List String → Option String
  | [] => none
  | line :: rest =>
    match recipeForRest line with
    | some t => some t
    | none => nameLoop1 rest

/-- Second scan of `extract_name` over the first 15 lines: an H1/H2
heading whose text is not a section label or site name and is longer than
3 characters. -/
def nameLoop2 : List String → Option String
  | [] => none
  | line :: rest =>
    let l := sTrim line
    if sw l "# " || sw l "## " then
      let title := sTrim (lstripHash l)
      if !(sectionHeaderNames.contains (sLower title)) && decide (3 < sLen title)
          && !(knownSiteNames.contains (sLower title)) then some title
      else nameLoop2 rest
    else nameLoop2 rest

/-- `extract_name` from `structure_recipes.py`. -/
def extract_name (text filename : String) : String :=
  let lines := splitLines text
  match nameLoop1 (lines.take 10) with
  | some t => t
  | none =>
    match nameLoop2 (lines.take 15) with
    | some t => t
    | none => ofChs (removeTxt filename.data)

/-- The substrings treated as section markers in `extract_description`. -/
def descHeaderKws : List String := ["ingredient", "instruction", "direction", "## ", "### "]

/-- Regex `^(prep|cook|total|active)\s*time` on the lowered stripped line. -/
def descMeta1 (ll : String) : Bool :=
  ["prep", "cook", "total", "active"].any fun p =>
    p.data.isPrefixOf ll.data
      && "time".data.isPrefixOf ((ll.data.drop p.data.length).dropWhile Char.isWhitespace)

/-- Regex `^(serves?|yield|servings?|course|cuisine|author)` on the lowered
stripped line. -/
def descMeta2 (ll : String) : Bool :=
  swAny ll ["serve", "yield", "serving", "course", "cuisine", "author"]

/-- Regex `^\d+\s*(min|hr|hour)` on the lowered stripped line. -/
def descMeta3 (ll : String) : Bool :=
  let ds := ll.data.takeWhile Char.isDigit
  !ds.isEmpty
    && (["min", "hr", "hour"].any fun u =>
        u.data.isPrefixOf ((ll.data.drop ds.length).dropWhile Char.isWhitespace))

/-- The collection loop of `extract_description` (first 30 lines): break
at a `#`-led section line, skip metadata/table/image/time lines, collect
stripped lines once a heading has been seen. -/
def descLoop (inDesc : Bool) : List String → List String
  | [] => []
  | line :: rest =>
    let ll := sLower (sTrim line)
    if descHeaderKws.any (fun h => sContains ll h) && sw ll "#" then []
    else if descMeta1 ll then descLoop inDesc rest
    else if descMeta2 ll then descLoop inDesc rest
    else if sw line "|" || sw line "---" then descLoop inDesc rest
    else if sw line "![" then descLoop inDesc rest
    else if descMeta3 ll then descLoop inDesc rest
    else if inDesc && !sIsEmpty (sTrim line) then sTrim line :: descLoop inDesc rest
    else if sw line "#" then descLoop true rest
    else descLoop inDesc rest

/-- `extract_description` from `structure_recipes.py`. -/
def extract_description (text : String) : Option String :=
  let dls := descLoop false ((splitLines text).take 30)
  if dls.isEmpty then none
  else
    let desc := joinSpace (dls.take 3)
    if decide (50 < sLen desc) then
      some (if decide (500 < sLen desc) then sTakeChars desc 500 else desc)
    else none

/-- Character class `[:\s]` of the label separators. -/
def wsOrColon (c : Char) : Bool := c == ':' || c.isWhitespace

/-- The duration unit alternatives `(?:min|minute|hr|hour|mins|minutes|hrs|hours)`. -/
def durationUnits : List String :=
  ["min", "minute", "hr", "hour", "mins", "minutes", "hrs", "hours"]

/-- Matches `\s*[:\s]+(\d+\s*(?:min|...)[^\n|]*)` at `r` and returns the
captured group: digits, whitespace, then everything up to a newline or
column bar, provided a duration unit follows the digits. -/
def durCapture (r : List Char) : Option (List Char) :=
  let sep := r.takeWhile wsOrColon
  if sep.isEmpty then none
  else
    let r2 := r.drop sep.length
    let ds := r2.takeWhile Char.isDigit
    if ds.isEmpty then none
    else
      let r3 := r2.drop ds.length
      let w := r3.takeWhile Char.isWhitespace
      let r4 := r3.drop w.length
      if durationUnits.any (fun u => clStarts u.data r4) then
        some (ds ++ w ++ r4.takeWhile (fun c => c != '\n' && c != '|'))
      else none

/-- Remainder candidates after the label `Prep(?:aration)?`, in greedy
order. -/
def prepLabelRests (cs : List Char) : List (List Char) :=
  if clStarts "prep".data cs then
    let r0 := cs.drop 4
    (if clStarts "aration".data r0 then [r0.drop 7] else []) ++ [r0]
  else []

/-- Remainder candidates after the label `Cook(?:ing)?`, in greedy order. -/
def cookLabelRests (cs : List Char) : List (List Char) :=
  if clStarts "cook".data cs then
    let r0 := cs.drop 4
    (if clStarts "ing".data r0 then [r0.drop 3] else []) ++ [r0]
  else []

/-- Remainder candidate after the label `Total`. -/
def totalLabelRests (cs : List Char) : List (List Char) :=
  if clStarts "total".data cs then [cs.drop 5] else []

/-- Remainder candidates for the optional `\s*(?:Time)?` part, in greedy
order. -/
def timeOptRests (r : List Char) : List (List Char) :=
  let r2 := r.dropWhile Char.isWhitespace
  (if clStarts "time".data r2 then [r2.drop 4] else []) ++ [r]

/-- Leftmost search for one labeled-duration pattern of `extract_times`;
the captured group is stripped. -/
def durSearch (labelRests : List Char → List (List Char)) : List Char → Option String
  | [] => none
  | c :: t =>
    match (((labelRests (c :: t)).map timeOptRests).flatten).findSome? durCapture with
    | some cap => some (sTrim ⟨cap⟩)
    | none => durSearch labelRests t

/-- The result of `extract_times`: the Python dict with the possible keys
`prep_time`, `cook_time`, `total_time` (a key is present exactly when its
field is `some`). -/
structure Times where
  prep : Option String
  cook : Option String
  total : Option String
deriving DecidableEq, Repr

/-- `extract_times` from `structure_recipes.py`. -/
def extract_times (text : String) : Times :=
  ⟨durSearch prepLabelRests text.data,
   durSearch cookLabelRests text.data,
   durSearch totalLabelRests text.data⟩

/-- The label alternatives `(?:Serves?|Servings?|Yield)` in greedy order. -/
def servingsLabels : List String := ["serves", "serve", "servings", "serving", "yield"]

/-- Matches the optional range part `(?:\s*[-–]\s*\d+)?` at `r`, returning
the matched characters and the remainder. -/
def servingsRange (r : List Char) : Option (List Char × List Char) :=
  let w1 := r.takeWhile Char.isWhitespace
  match r.drop w1.length with
  | c :: r2 =>
    if c == '-' || c == '–' then
      let w2 := r2.takeWhile Char.isWhitespace
      let ds := (r2.drop w2.length).takeWhile Char.isDigit
      if ds.isEmpty then none
      else some (w1 ++ [c] ++ w2 ++ ds, (r2.drop w2.length).drop ds.length)
    else none
  | [] => none

/-- The unit alternatives `(?:people|servings?|portions?)` in greedy order. -/
def servingsUnits : List String := ["people", "servings", "serving", "portions", "portion"]

/-- Matches `\s*[:\s]+(\d+(?:\s*[-–]\s*\d+)?(?:\s*(?:people|servings?|portions?))?)`
at `r`, returning the captured group. -/
def servingsCapture1 (r : List Char) : Option (List Char) :=
  let sep := r.takeWhile wsOrColon
  if sep.isEmpty then none
  else
    let r2 := r.drop sep.length
    let ds := r2.takeWhile Char.isDigit
    if ds.isEmpty then none
    else
      let r3 := r2.drop ds.length
      let rng := match servingsRange r3 with
        | some (m, rest) => (m, rest)
        | none => (([] : List Char), r3)
      let w := rng.2.takeWhile Char.isWhitespace
      let unitPart := match servingsUnits.find? (fun u => clStarts u.data (rng.2.drop w.length)) with
        | some u => w ++ (rng.2.drop w.length).take u.data.length
        | none => []
      some (ds ++ rng.1 ++ unitPart)

/-- Leftmost search for the first servings pattern. -/
def servingsSearch1 : List Char → Option String
  | [] => none
  | c :: t =>
    match (servingsLabels.filterMap (fun lab =>
        if clStarts lab.data (c :: t) then some ((c :: t).drop lab.data.length) else none)).findSome?
        servingsCapture1 with
    | some cap => some (sTrim ⟨cap⟩)
    | none => servingsSearch1 t

/-- Matches `\s*(\d+(?:\s*[-–]\s*\d+)?)` after a caseless `SERVES:`. -/
def servingsCapture2 (r : List Char) : Option (List Char) :=
  let r2 := r.dropWhile Char.isWhitespace
  let ds := r2.takeWhile Char.isDigit
  if ds.isEmpty then none
  else
    match servingsRange (r2.drop ds.length) with
    | some (m, _) => some (ds ++ m)
    | none => some ds

/-- Leftmost search for the second servings pattern (`SERVES:` with
`re.IGNORECASE`). -/
def servingsSearch2 : List Char → Option String
  | [] => none
  | c :: t =>
    if clStarts "serves:".data (c :: t) then
      match servingsCapture2 ((c :: t).drop 7) with
      | some cap => some (sTrim ⟨cap⟩)
      | none => servingsSearch2 t
    else servingsSearch2 t

/-- `extract_servings` from `structure_recipes.py`. -/
def extract_servings (text : String) : Option String :=
  match servingsSearch1 text.data with
  | some s => some s
  | none => servingsSearch2 text.data

/-- Character class `[a-zA-Z\s]` of the author-name pattern. -/
def azWs (c : Char) : Bool := c.isAlpha || c.isWhitespace

/-- The terminator alternation `(?:\s*\||$|\n)` of the author pattern
(`$` without `re.MULTILINE` matches at the end of the string or before a
final newline). -/
def nameTerm (r : List Char) : Bool :=
  (match r.dropWhile Char.isWhitespace with | '|' :: _ => true | _ => false)
    || r.isEmpty
    || (match r with | '\n' :: _ => true | _ => false)

/-- The lazy part `[a-zA-Z\s]+?` of the author pattern: consume class
characters one at a time, stopping at the first point where the terminator
matches. -/
def lazyNameCap (acc : List Char) : List Char → Option (List Char)
  | [] => none
  | c :: rest =>
    if azWs c then
      if nameTerm rest then some (acc ++ [c])
      else lazyNameCap (acc ++ [c]) rest
    else none

/-- Attempt of the author regex `(?:Author|By)[:\s]+([A-Z][a-zA-Z\s]+?)(?:\s*\||$|\n)`
at one position (case sensitive, alternatives in order). -/
def authorAt (cs : List Char) : Option (List Char) :=
  (if "Author".data.isPrefixOf cs then some (cs.drop 6)
   else if "By".data.isPrefixOf cs then some (cs.drop 2)
   else none).bind fun r =>
    let sep := r.takeWhile wsOrColon
    if sep.isEmpty then none
    else
      match r.drop sep.length with
      | c :: rest => if c.isUpper then lazyNameCap [c] rest else none
      | [] => none

/-- Leftmost search of the author pattern; the capture is stripped. -/
def authorScan : List Char → Option String
  | [] => none
  | c :: t =>
    match authorAt (c :: t) with
    | some cap => some (sTrim ⟨cap⟩)
    | none => authorScan t

/-- Character class `[a-zA-Z0-9-]` of the URL-domain pattern. -/
def urlClassChar (c : Char) : Bool := c.isAlpha || c.isDigit || c == '-'

/-- Attempt of `https?://(?:www\.)?([a-zA-Z0-9-]+)\.(?:com|org|net)` at one
position. -/
def urlDomainAt (cs : List Char) : Option (List Char) :=
  (if "https://".data.isPrefixOf cs then some (cs.drop 8)
   else if "http://".data.isPrefixOf cs then some (cs.drop 7)
   else none).bind fun r =>
    let cands := (if "www.".data.isPrefixOf r then [r.drop 4] else []) ++ [r]
    cands.findSome? fun r2 =>
      let run := r2.takeWhile urlClassChar
      if run.isEmpty then none
      else
        match r2.drop run.length with
        | '.' :: r3 =>
          if ["com", "org", "net"].any (fun tld => tld.data.isPrefixOf r3) then some run
          else none
        | _ => none

/-- Leftmost search of the URL-domain pattern. -/
def urlDomainScan : List Char → Option String
  | [] => none
  | c :: t =>
    match urlDomainAt (c :: t) with
    | some run => some ⟨run⟩
    | none => urlDomainScan t

/-- The known recipe-site names scanned by `extract_source`. -/
def knownSources : List String :=
  ["epicurious", "allrecipes", "food52", "bon appétit", "food & wine",
   "eatingwell", "serious eats", "nyt cooking"]

/-- `extract_source` from `structure_recipes.py`. -/
def extract_source (text : String) : Option String :=
  match authorScan text.data with
  | some s => some s
  | none =>
    match urlDomainScan text.data with
    | some d => some d
    | none => (knownSources.find? (fun s => sContains (sLower text) s)).map pyTitle

/-! ## `structure_recipes.py`: nutrition -/

/-- Capture `(\d+)` at `r` (the calories value). -/
def digitCapture (r : List Char) : Option (List Char) :=
  let ds := r.takeWhile Char.isDigit
  if ds.isEmpty then none else some ds

/-- Tail of the gram capture after the leading digits and an optional
period: `\d*\s*<unit>`, with the unit matched caselessly. -/
def gramCapTail (d mid : List Char) (unit : List Char) (r2 : List Char) : Option (List Char) :=
  let d2 := r2.takeWhile Char.isDigit
  let r3 := r2.drop d2.length
  let w := r3.takeWhile Char.isWhitespace
  let r4 := r3.drop w.length
  if clStarts unit r4 then some (d ++ mid ++ d2 ++ w ++ r4.take unit.length) else none

/-- Capture `(\d+\.?\d*\s*<unit>)` at `r`, trying the optional period
greedily first. -/
def gramCapture (unit : List Char) (r : List Char) : Option (List Char) :=
  let d := r.takeWhile Char.isDigit
  if d.isEmpty then none
  else
    let r1 := r.drop d.length
    match r1 with
    | '.' :: r2 =>
      (match gramCapTail d ['.'] unit r2 with
       | some cap => some cap
       | none => gramCapTail d [] unit r1)
    | _ => gramCapTail d [] unit r1

/-- Leftmost search for one nutrition pattern: a caseless label (greedy
alternatives in order), the separator run `\s*[:\s]+`, then the capture. -/
def nutrSearch (labels : List String) (cap : List Char → Option (List Char)) :
    List Char → Option String
  | [] => none
  | c :: t =>
    match (labels.filterMap (fun lab =>
        if clStarts lab.data (c :: t) then some ((c :: t).drop lab.data.length) else none)).findSome?
        (fun r =>
          let sep := r.takeWhile wsOrColon
          if sep.isEmpty then none else cap (r.drop sep.length)) with
    | some v => some ⟨v⟩
    | none => nutrSearch labels cap t

/-- `extract_nutrition` from `structure_recipes.py`: the six labeled-value
patterns, assembled in dict insertion order; `none` when none match. -/
def extract_nutrition (text : String) : Option (List (String × String)) :=
  let cs := text.data
  let entry := fun (key : String) (labels : List String) (cap : List Char → Option (List Char)) =>
    match nutrSearch labels cap cs with
    | some v => [(key, v)]
    | none => ([] : List (String × String))
  let entries :=
    entry "calories" ["calories", "calorie"] digitCapture
      ++ entry "protein" ["protein"] (gramCapture ['g'])
      ++ entry "carbohydrates" ["carbohydrates", "carbohydrate"] (gramCapture ['g'])
      ++ entry "fat" ["fat"] (gramCapture ['g'])
      ++ entry "fiber" ["fiber"] (gramCapture ['g'])
      ++ entry "sodium" ["sodium"] (gramCapture ['m', 'g'])
  if entries.isEmpty then none else some entries

/-! ## `structure_recipes.py`: ingredients -/

/-- Count of leading `#` characters. -/
def leadHashCount (cs : List Char) : Nat := (cs.takeWhile (· == '#')).length

/-- Regex `^#{1,3}\s*(<kw1>|<kw2>|...)` on a lowered stripped line: one to
three hashes, optional whitespace, then one of the keyword prefixes. -/
def hashHeadingAny (kws : List String) (ll : String) : Bool :=
  let cs := ll.data
  let n := leadHashCount cs
  decide (1 ≤ n) && decide (n ≤ 3)
    && (let r := (cs.drop n).dropWhile Char.isWhitespace
        kws.any (fun k => k.data.isPrefixOf r))

/-- The ingredients-section start test (`^#{1,3}\s*ingredients?` or a bare
`ingredients` line). -/
def ingHeading (ll : String) : Bool := hashHeadingAny ["ingredient"] ll || ll == "ingredients"

/-- The instructions-section start test
(`^#{1,3}\s*(instructions?|directions?|method|preparation|steps?)`). -/
def instrHeading (ll : String) : Bool :=
  hashHeadingAny ["instruction", "direction", "method", "preparation", "step"] ll

/-- Regex `^[-*•]\s*` removal. -/
def stripBullet (s : String) : String :=
  match s.data with
  | c :: rest =>
    if c == '-' || c == '*' || c == '•' then ⟨rest.dropWhile Char.isWhitespace⟩ else s
  | [] => s

/-- Regex `^\d+[\.\)]\s*` removal. -/
def stripNum (s : String) : String :=
  let ds := s.data.takeWhile Char.isDigit
  if ds.isEmpty then s
  else
    match s.data.drop ds.length with
    | c :: rest =>
      if c == '.' || c == ')' then ⟨rest.dropWhile Char.isWhitespace⟩ else s
    | [] => s

/-- State of `extract_ingredients`: the flat list, the group dict (an
association list in insertion order), and the current group label (`""`
plays Python's falsy `None`). -/
structure IngState where
  ingredients : List String
  groups : List (String × List String)
  currentGroup : String
deriving DecidableEq, Repr

/-- Python `ingredient_groups[k] = []`: overwrite in place, or append a new
key. -/
def setGroup (gs : List (String × List String)) (k : String) : List (String × List String) :=
  if gs.any (fun p => p.1 == k) then
    gs.map (fun p => if p.1 == k then (p.1, ([] : List String)) else p)
  else gs ++ [(k, [])]

/-- Python `ingredient_groups[k].append(v)`. -/
def appendGroup (gs : List (String × List String)) (k v : String) : List (String × List String) :=
  gs.map (fun p => if p.1 == k then (p.1, p.2 ++ [v]) else p)

/-- Python `k in ingredient_groups`. -/
def hasGroup (gs : List (String × List String)) (k : String) : Bool := gs.any (fun p => p.1 == k)

/-- Route one ingredient row into the active group, else the flat list. -/
def routeItem (st : IngState) (x : String) : IngState :=
  if !sIsEmpty st.currentGroup && hasGroup st.groups st.currentGroup then
    { st with groups := appendGroup st.groups st.currentGroup x }
  else { st with ingredients := st.ingredients ++ [x] }

/-- Python `[p.strip() for p in ingredient.split('|') if p.strip()]`. -/
def tableParts (ing : String) : List String :=
  ((splitChar '|' ing.data).map (fun cs => sTrim ⟨cs⟩)).filter (fun p => !sIsEmpty p)

/-- Route the non-`---` parts of a table row. -/
def routeParts (st : IngState) (parts : List String) : IngState :=
  parts.foldl (fun s p => if !sIsEmpty p && !sw p "---" then routeItem s p else s) st

/-- The primary (markdown) scan of `extract_ingredients`. -/
def ingPrimary (st : IngState) (inIng : Bool) : List String → IngState
  | [] => st
  | line :: rest =>
    let l := sTrim line
    let ll := sLower l
    if ingHeading ll then ingPrimary st true rest
    else if inIng && instrHeading ll then st
    else if !inIng then ingPrimary st false rest
    else if sIsEmpty l then ingPrimary st true rest
    else if sw l "![" then ingPrimary st true rest
    else if sw l "|" && sContains l "---" then ingPrimary st true rest
    else if sw l "###" || (ew l ":" && decide (sLen l < 50)) then
      let g := sTrim (rstripColon (lstripHash l))
      ingPrimary (if sIsEmpty g then { st with currentGroup := g }
                  else { st with currentGroup := g, groups := setGroup st.groups g }) true rest
    else
      let ing := stripNum (stripBullet l)
      if decide (sLen ing < 3) then ingPrimary st true rest
      else if sw ing "#" then ingPrimary st true rest
      else if sContains (sLower ing) "cook mode" || sContains (sLower ing) "screen" then
        ingPrimary st true rest
      else if sContains ing "|" then ingPrimary (routeParts st (tableParts ing)) true rest
      else ingPrimary (routeItem st ing) true rest

/-- The quantity-unit alternatives of the fallback measurement regex. -/
def measUnits : List String :=
  ["c.", "cup", "tsp", "tbs", "tbsp", "oz", "lb", "pound", "teaspoon",
   "tablespoon", "inch", "clove", "sprig"]

/-- Regex search `\d+\s*(c\.|cup|tsp|...)` (caseless) anywhere in a line. -/
def measScan : List Char → Bool
  | [] => false
  | c :: t =>
    (c.isDigit
        && (let r := ((c :: t).dropWhile Char.isDigit).dropWhile Char.isWhitespace
            measUnits.any (fun u => clStarts u.data r)))
      || measScan t

/-- Whether a line contains a quantity-unit token. -/
def fbMeasure (l : String) : Bool := measScan l.data

/-- Column splitter `re.split(r'\s{2,}|\t', s)`: a maximal whitespace run
of length at least two, or a lone tab, separates columns. `piece` and
`wsbuf` are reversed accumulators of the current column and of pending
whitespace not yet classified. -/
def splitColsGo (piece wsbuf : List Char) : List Char → List (List Char)
  | [] =>
    if decide (2 ≤ wsbuf.length) || wsbuf == ['\t'] then [piece.reverse, []]
    else [(wsbuf ++ piece).reverse]
  | c :: rest =>
    if c.isWhitespace then splitColsGo piece (c :: wsbuf) rest
    else if decide (2 ≤ wsbuf.length) || wsbuf == ['\t'] then
      piece.reverse :: splitColsGo [c] [] rest
    else splitColsGo (c :: (wsbuf ++ piece)) [] rest

/-- Python `re.split(r'\s{2,}|\t', s)`. -/
def splitCols (cs : List Char) : List (List Char) := splitColsGo [] [] cs

/-- The stripped parts of a multi-column line that are longer than 3
characters. -/
def colParts (l : String) : List String :=
  ((splitCols l.data).map (fun cs => sTrim ⟨cs⟩)).filter
    (fun p => !sIsEmpty p && decide (3 < sLen p))

/-- The instruction-paragraph openers that stop the fallback scan. -/
def fbInstrVerbs : List String :=
  ["In ", "Add ", "Heat ", "Pour ", "Cook ", "Place ", "Season ", "Transfer "]

/-- Route the column parts of a line inside the fallback scan: into the
current group when its key exists, else the flat list. -/
def colRoute (st : IngState) (l : String) : IngState :=
  (colParts l).foldl
    (fun s p =>
      if hasGroup s.groups s.currentGroup then
        { s with groups := appendGroup s.groups s.currentGroup p }
      else { s with ingredients := s.ingredients ++ [p] })
    st

/-- The fallback ("RECIPE FOR:" handwritten style) scan of
`extract_ingredients`; `i` is the running line index. -/
def fbLoop (st : IngState) (inRecipe : Bool) (i : Nat) : List String → IngState
  | [] => st
  | line :: rest =>
    let l := sTrim line
    if sContains (sUpper line) "RECIPE FOR:" then fbLoop st true (i + 1) rest
    else if !inRecipe then fbLoop st false (i + 1) rest
    else if decide (100 < sLen l) && swAny l fbInstrVerbs then st
    else if (l == "DSS" || sIsEmpty l) && decide (5 < i) then
      if sIsEmpty l then
        if (rest.take 2).any (fun nl => !sIsEmpty (sTrim nl) && decide (80 < sLen (sTrim nl))) then st
        else fbLoop st true (i + 1) rest
      else fbLoop st true (i + 1) rest
    else if sContains (sUpper l) "PREPARATION TIME" then st
    else if sIsEmpty l || l == "DSS" then fbLoop st true (i + 1) rest
    else if fbMeasure l then
      fbLoop { st with ingredients := st.ingredients ++ colParts l } true (i + 1) rest
    else if pyIsUpper l && decide (sLen l < 30) then
      let g := pyTitle l
      fbLoop { st with currentGroup := g, groups := setGroup st.groups g } true (i + 1) rest
    else if !sIsEmpty st.currentGroup && decide (3 < sLen l) then
      fbLoop (colRoute st l) true (i + 1) rest
    else fbLoop st true (i + 1) rest

/-- The final group-count branch of `extract_ingredients`: the group dict
is surfaced only when it has more than one key; a single group is merged
back into the flat list. -/
def ingFinalize (st : IngState) : List String × Option (List (String × List String)) :=
  if decide (1 < st.groups.length) then (st.ingredients, some st.groups)
  else if st.groups.isEmpty then (st.ingredients, none)
  else (st.ingredients ++ (st.groups.map Prod.snd).flatten, none)

/-- The combined scan state over a line list: the primary scan, then —
only when its flat list is empty — the fallback scan (which keeps the
primary scan's group state). -/
def ingScanLines (lines : List String) : IngState :=
  let st := ingPrimary ⟨[], [], ""⟩ false lines
  if st.ingredients.isEmpty then fbLoop st false 0 lines else st

/-- `extract_ingredients` over a line list. -/
def extractIngredientsLines (lines : List String) :
    List String × Option (List (String × List String)) :=
  ingFinalize (ingScanLines lines)

/-- `extract_ingredients` from `structure_recipes.py`: the primary scan,
then — only when the flat list is empty — the fallback scan, then the
group-count branch. -/
def extract_ingredients (text : String) : List String × Option (List (String × List String)) :=
  extractIngredientsLines (splitLines text)

/-! ## `structure_recipes.py`: instructions and notes -/

/-- Regex `^#{1,3}\s*step\s*\d+` on a lowered stripped line. -/
def stepNumHeading (ll : String) : Bool :=
  let cs := ll.data
  let n := leadHashCount cs
  decide (1 ≤ n) && decide (n ≤ 3)
    && (let r := (cs.drop n).dropWhile Char.isWhitespace
        "step".data.isPrefixOf r
          && (match (r.drop 4).dropWhile Char.isWhitespace with
              | c :: _ => c.isDigit
              | [] => false))

/-- Regex class `\w` (ASCII). -/
def isWordChar (c : Char) : Bool := c.isAlphanum || c == '_'

/-- Regex `^[1]\s*[\.\)]\s*\w` on a stripped line: the "1." numbered-step
opener that starts instruction collection without a heading. -/
def oneStepStart (l : String) : Bool :=
  match l.data with
  | '1' :: r =>
    (match r.dropWhile Char.isWhitespace with
     | c :: r3 =>
       (c == '.' || c == ')')
         && (match r3.dropWhile Char.isWhitespace with
             | c2 :: _ => isWordChar c2
             | [] => false)
     | [] => false)
  | _ => false

/-- The instruction-ending headings `^#{1,3}\s*(notes?|tips?|nutrition|equipment)`. -/
def notesEndHeading (ll : String) : Bool :=
  hashHeadingAny ["note", "tip", "nutrition", "equipment"] ll

/-- The collection loop of `extract_instructions`. -/
def instrLoop (inInstr : Bool) : List String → List String
  | [] => []
  | line :: rest =>
    let l := sTrim line
    let ll := sLower l
    if instrHeading ll then instrLoop true rest
    else
      let inI := if oneStepStart l && !inInstr then true else inInstr
      if inI && notesEndHeading ll then []
      else if !inI then instrLoop inI rest
      else if sIsEmpty l || sw l "![" then instrLoop inI rest
      else if stepNumHeading ll then instrLoop inI rest
      else
        let ins := stripNum (stripBullet l)
        if decide (sLen ins < 10) then instrLoop inI rest
        else ins :: instrLoop inI rest

/-- `extract_instructions` from `structure_recipes.py`. -/
def extract_instructions (text : String) : List String := instrLoop false (splitLines text)

/-- The `cook.?s?\s*notes?` alternative of the notes heading, matched with
the optional single character and optional `s` tried greedily. -/
def cookNotesTail (r1 : List Char) : Bool :=
  let dotCands := match r1 with
    | c :: t => if c != '\n' then [t, r1] else [r1]
    | [] => [r1]
  dotCands.any fun r2 =>
    let sCands := match r2 with
      | 's' :: t => [t, r2]
      | _ => [r2]
    sCands.any fun r3 => "note".data.isPrefixOf (r3.dropWhile Char.isWhitespace)

/-- The notes-section start test
(`^#{1,3}\s*(notes?|tips?|cook.?s?\s*notes?|variations?)`). -/
def notesHeading (ll : String) : Bool :=
  let cs := ll.data
  let n := leadHashCount cs
  decide (1 ≤ n) && decide (n ≤ 3)
    && (let r := (cs.drop n).dropWhile Char.isWhitespace
        "note".data.isPrefixOf r || "tip".data.isPrefixOf r
          || ("cook".data.isPrefixOf r && cookNotesTail (r.drop 4))
          || "variation".data.isPrefixOf r)

/-- The collection loop of `extract_notes`. -/
def notesLoop (inNotes : Bool) : List String → List String
  | [] => []
  | line :: rest =>
    let l := sTrim line
    let ll := sLower l
    if notesHeading ll then notesLoop true rest
    else if inNotes && hashHeadingAny ["nutrition", "equipment"] ll then []
    else if !inNotes then notesLoop inNotes rest
    else if sIsEmpty l || sw l "![" then notesLoop inNotes rest
    else
      let nt := stripNum (stripBullet l)
      if decide (10 < sLen nt) then nt :: notesLoop inNotes rest
      else notesLoop inNotes rest

/-- `extract_notes` from `structure_recipes.py`. -/
def extract_notes (text : String) : List String := notesLoop false (splitLines text)

/-! ## `structure_recipes.py`: tag generation -/

/-- Python `t in tags` membership in the running tag set. -/
def hasStr : List String → String → Bool
  | [], _ => false
  | s :: rest, t => s == t || hasStr rest t

/-- Python `tags.add(t)` on the set represented as a duplicate-free list in
insertion order. -/
def addTag (ts : List String) (t : String) : List String :=
  if hasStr ts t then ts else ts ++ [t]

/-- Lexicographic comparison of character lists by code point (Python `<`
on strings). -/
def lexLt : List Char → List Char → Bool
  | [], [] => false
  | [], _ :: _ => true
  | _ :: _, [] => false
  | a :: as, b :: bs => decide (a < b) || (a == b && lexLt as bs)

/-- Python `<` on strings. -/
def strLt (a b : String) : Bool := lexLt a.data b.data

/-- Insertion into a sorted list. -/
def insertSorted (s : String) : List String → List String
  | [] => [s]
  | t :: ts => if strLt s t then s :: t :: ts else t :: insertSorted s ts

/-- Python `sorted(...)` on a list of strings. -/
def sortStrs : List String → List String
  | [] => []
  | s :: ss => insertSorted s (sortStrs ss)

/-- The protein keyword table of `generate_tags`. -/
def proteinTable : List (String × List String) :=
  [("chicken", ["chicken", "poultry"]),
   ("beef", ["beef", "steak", "short rib"]),
   ("pork", ["pork", "bacon", "pancetta", "prosciutto"]),
   ("fish", ["salmon", "cod", "halibut", "tilapia", "snapper", "bass", "fish"]),
   ("seafood", ["shrimp", "prawn", "scallop", "mussel", "clam", "crab", "lobster", "squid"]),
   ("turkey", ["turkey"]),
   ("lamb", ["lamb"]),
   ("tofu", ["tofu"])]

/-- The dish-type keyword table of `generate_tags`. -/
def dishTable : List (String × List String) :=
  [("soup", ["soup", "broth"]),
   ("stew", ["stew", "braised", "braise"]),
   ("salad", ["salad"]),
   ("pasta", ["pasta", "spaghetti", "penne", "pappardelle", "noodle", "orzo"]),
   ("stir-fry", ["stir fry", "stir-fry", "wok"]),
   ("roast", ["roast", "roasted"]),
   ("grilled", ["grill", "grilled"]),
   ("skillet", ["skillet"]),
   ("one-pot", ["one-pot", "one pot", "dutch oven"]),
   ("slow cooker", ["slow cooker", "crock pot", "crockpot"]),
   ("casserole", ["casserole", "bake"])]

/-- The cuisine keyword table of `generate_tags`. -/
def cuisineTable : List (String × List String) :=
  [("italian", ["italian", "parmesan", "parmigiano", "bolognese", "carbonara", "pesto"]),
   ("mexican", ["mexican", "taco", "salsa", "cilantro", "jalapeño", "chipotle", "cumin"]),
   ("asian", ["asian", "soy sauce", "sesame", "ginger", "bok choy"]),
   ("chinese", ["chinese", "hoisin", "oyster sauce", "five spice"]),
   ("thai", ["thai", "fish sauce", "thai basil", "coconut milk curry"]),
   ("indian", ["indian", "curry", "garam masala", "turmeric", "tikka", "masala", "vindaloo"]),
   ("korean", ["korean", "gochujang", "kimchi", "galbi"]),
   ("mediterranean", ["mediterranean", "olive oil", "feta", "hummus"]),
   ("cajun", ["cajun", "creole", "jambalaya", "gumbo", "andouille"]),
   ("french", ["french", "bourguignon", "provençal", "herbes de provence"]),
   ("southern", ["southern", "grits", "cornbread"])]

/-- The dessert keywords of the meal-type chain. -/
def dessertKws : List String := ["dessert", "cake", "pie", "cookie", "chocolate", "sweet"]

/-- The breakfast keywords of the meal-type chain. -/
def breakfastKws : List String := ["breakfast", "brunch", "egg", "pancake"]

/-- The appetizer keywords of the meal-type chain. -/
def appetizerKws : List String := ["appetizer", "dip", "snack", "starter"]

/-- The side-dish keywords of the meal-type chain. -/
def sideKws : List String := ["side dish", "side"]

/-- The five mutually exclusive meal-type tags, in chain order. -/
def mealTypeTags : List String := ["dessert", "breakfast", "appetizer", "side dish", "dinner"]

/-- The lowercased concatenation `name + ingredients + instructions + text`
over which all tag keywords are matched. -/
def tagSourceText (name : String) (ingredients instructions : List String) (text : String) :
    String :=
  sLower (name ++ " " ++ joinSpace ingredients ++ " " ++ joinSpace instructions ++ " " ++ text)

/-- Python `any(kw in all_text for kw in kws)`. -/
def anyKwIn (t : String) (ks : List String) : Bool := ks.any (fun k => sContains t k)

/-- Fold one keyword table over the running tag set. -/
def tableTags (table : List (String × List String)) (t : String) (init : List String) :
    List String :=
  table.foldl (fun ts p => if anyKwIn t p.2 then addTag ts p.1 else ts) init

/-- The meal-type if/elif chain of `generate_tags`: exactly one of the five
meal tags is added, with `dinner` as the default. -/
def mealAdd (ts : List String) (t : String) : List String :=
  if anyKwIn t dessertKws then addTag ts "dessert"
  else if anyKwIn t breakfastKws then addTag ts "breakfast"
  else if anyKwIn t appetizerKws then addTag ts "appetizer"
  else if anyKwIn t sideKws then addTag ts "side dish"
  else addTag ts "dinner"

/-- Whether any meal-type keyword matches (the chain leaves the default
`dinner` branch exactly when this is false). -/
def mealKwHit (t : String) : Bool :=
  anyKwIn t dessertKws || anyKwIn t breakfastKws || anyKwIn t appetizerKws || anyKwIn t sideKws

/-- The protein, dish-type and cuisine table passes of `generate_tags`, in
source order. -/
def baseTags (t : String) : List String :=
  tableTags cuisineTable t (tableTags dishTable t (tableTags proteinTable t []))

/-- The independent boolean tag additions of `generate_tags` (vegetarian —
guarded by the chicken/beef tags already present — vegan, healthy, comfort
food, quick, spicy, creamy), in source order. -/
def extraTags (ts : List String) (t : String) : List String :=
  let t5 :=
    if anyKwIn t ["vegetarian", "veggie", "meatless"]
        && !hasStr ts "chicken" && !hasStr ts "beef" then
      addTag ts "vegetarian"
    else ts
  let t6 := if sContains t "vegan" then addTag t5 "vegan" else t5
  let t7 := if anyKwIn t ["healthy", "low-calorie", "light"] then addTag t6 "healthy" else t6
  let t8 := if anyKwIn t ["comfort food", "hearty", "cozy"] then addTag t7 "comfort food" else t7
  let t9 :=
    if anyKwIn t ["quick", "easy", "30 min", "20 min", "15 min"] then addTag t8 "quick" else t8
  let tA :=
    if anyKwIn t ["spicy", "hot sauce", "chili", "cayenne", "jalapeño"] then addTag t9 "spicy"
    else t9
  if anyKwIn t ["creamy", "cream", "cheese"] then addTag tA "creamy" else tA

/-- `generate_tags` from `structure_recipes.py`: the three keyword tables,
the meal-type chain, the boolean tags, then the sorted set. -/
def generate_tags (name : String) (ingredients instructions : List String) (text : String) :
    List String :=
  let allText := tagSourceText name ingredients instructions text
  sortStrs (extraTags (mealAdd (baseTags allText) allText) allText)

/-! ## `structure_recipes.py`: record assembly -/

/-- JSON-like values stored in a structured-recipe record. -/
inductive JVal where
  | s (v : String)
  | list (v : List String)
  | group (v : List (String × List String))
  | nutr (v : List (String × String))
  | null
deriving DecidableEq, Repr

/-- Python `if v: recipe[key] = v` for a string extractor result. -/
def optField (key : String) (v : Option String) : List (String × JVal) :=
  match v with
  | some x => if sIsEmpty x then [] else [(key, JVal.s x)]
  | none => []

/-- One optional time key from the `times` dict (`recipe.update(times)`
adds the key whenever the pattern matched). -/
def timeField (key : String) (v : Option String) : List (String × JVal) :=
  match v with
  | some x => [(key, JVal.s x)]
  | none => []

/-- The keys added by `recipe.update(times)`, in dict insertion order. -/
def timesFields (t : Times) : List (String × JVal) :=
  timeField "prep_time" t.prep ++ timeField "cook_time" t.cook ++ timeField "total_time" t.total

/-- Python `if notes: recipe['notes'] = notes`. -/
def listField (key : String) (v : List String) : List (String × JVal) :=
  if v.isEmpty then [] else [(key, JVal.list v)]

/-- Python `if ingredient_groups: recipe['ingredient_groups'] = ingredient_groups`. -/
def groupField (v : Option (List (String × List String))) : List (String × JVal) :=
  match v with
  | some gs => if gs.isEmpty then [] else [("ingredient_groups", JVal.group gs)]
  | none => []

/-- Python `if nutrition: recipe['nutrition'] = nutrition`. -/
def nutrField (v : Option (List (String × String))) : List (String × JVal) :=
  match v with
  | some xs => if xs.isEmpty then [] else [("nutrition", JVal.nutr xs)]
  | none => []

/-- `process_recipe` from `structure_recipes.py`: the record dict, as an
association list in Python's insertion order (reading the file is the
external input collaborator, so the text and filename are the inputs). -/
def process_recipe (text filename : String) : List (String × JVal) :=
  let name := extract_name text filename
  let ing := extract_ingredients text
  let instructions := extract_instructions text
  [("name", JVal.s name), ("source_file", JVal.s filename)]
    ++ optField "source" (extract_source text)
    ++ optField "description" (extract_description text)
    ++ timesFields (extract_times text)
    ++ optField "servings" (extract_servings text)
    ++ [("ingredients", JVal.list ing.1)]
    ++ groupField ing.2
    ++ [("instructions", JVal.list instructions)]
    ++ listField "notes" (extract_notes text)
    ++ nutrField (extract_nutrition text)
    ++ [("category", JVal.null), ("tags", JVal.list (generate_tags name ing.1 instructions text))]

/-- Whether a record has a key. -/
def hasKey (r : List (String × JVal)) (k : String) : Bool := r.any (fun p => p.1 == k)

/-- First value stored under a key. -/
def lookupKey : List (String × JVal) → String → Option JVal
  | [], _ => none
  | p :: rest, k => if p.1 == k then some p.2 else lookupKey rest k

/-! ## Tag-set membership lemmas -/

theorem hasStr_iff (l : List String) (t : String) : hasStr l t = true ↔ t ∈ l := by
  induction l with
  | nil => simp [hasStr]
  | cons s rest ih =>
    simp [hasStr, ih, beq_iff_eq]
    constructor
    · rintro (h | h)
      · exact Or.inl h.symm
      · exact Or.inr h
    · rintro (h | h)
      · exact Or.inl h.symm
      · exact Or.inr h

theorem mem_addTag (l : List String) (t a : String) : a ∈ addTag l t ↔ a ∈ l ∨ a = t := by
  unfold addTag
  split
  · rename_i h
    constructor
    · exact Or.inl
    · rintro (h2 | rfl)
      · exact h2
      · exact (hasStr_iff l a).mp h
  · simp

theorem mem_insertSorted (s a : String) (l : List String) :
    a ∈ insertSorted s l ↔ a = s ∨ a ∈ l := by
  induction l with
  | nil => simp [insertSorted]
  | cons t ts ih =>
    unfold insertSorted
    split
    · simp
    · rw [List.mem_cons, ih, List.mem_cons]
      tauto

theorem mem_sortStrs (a : String) (l : List String) : a ∈ sortStrs l ↔ a ∈ l := by
  induction l with
  | nil => simp [sortStrs]
  | cons s ss ih => simp [sortStrs, mem_insertSorted, ih]

theorem mem_tableTags (table : List (String × List String)) (t : String) (a : String) :
    ∀ init : List String,
      a ∈ tableTags table t init
        ↔ a ∈ init ∨ a ∈ (table.filter (fun p => anyKwIn t p.2)).map Prod.fst := by
  induction table with
  | nil => intro init; simp [tableTags]
  | cons p rest ih =>
    intro init
    have hstep : tableTags (p :: rest) t init
        = tableTags rest t (if anyKwIn t p.2 then addTag init p.1 else init) := rfl
    rw [hstep, ih]
    by_cases hc : anyKwIn t p.2 = true
    · rw [if_pos hc]
      simp only [List.filter_cons, hc, if_true, List.map_cons, List.mem_cons, mem_addTag]
      tauto
    · rw [if_neg hc]
      have hc' : anyKwIn t p.2 = false := by revert hc; cases anyKwIn t p.2 <;> simp
      simp only [List.filter_cons, hc', Bool.false_eq_true, if_false]

theorem mem_tableTags_names (table : List (String × List String)) (t : String) (a : String)
    (init : List String) (h : a ∈ tableTags table t init) :
    a ∈ init ∨ a ∈ table.map Prod.fst := by
  rcases (mem_tableTags table t a init).mp h with h2 | h2
  · exact Or.inl h2
  · right
    rcases List.mem_map.mp h2 with ⟨p, hp, rfl⟩
    exact List.mem_map.mpr ⟨p, (List.mem_filter.mp hp).1, rfl⟩

theorem mem_baseTags_names (t : String) (a : String) (h : a ∈ baseTags t) :
    a ∈ (proteinTable ++ dishTable ++ cuisineTable).map Prod.fst := by
  unfold baseTags at h
  rcases mem_tableTags_names _ _ _ _ h with h2 | h2
  · rcases mem_tableTags_names _ _ _ _ h2 with h3 | h3
    · rcases mem_tableTags_names _ _ _ _ h3 with h4 | h4
      · simp at h4
      · simp [h4]
    · simp [h3]
  · simp [h2]

theorem meal_not_mem_baseTags (t m : String) (hm : m ∈ mealTypeTags) : m ∉ baseTags t := by
  intro h
  have h2 := mem_baseTags_names t m h
  simp only [mealTypeTags] at hm
  fin_cases hm <;> simp +decide [proteinTable, dishTable, cuisineTable] at h2

theorem vegetarian_not_mem_baseTags (t : String) : "vegetarian" ∉ baseTags t := by
  intro h
  have h2 := mem_baseTags_names t "vegetarian" h
  simp +decide [proteinTable, dishTable, cuisineTable] at h2

theorem mealAdd_cases (ts : List String) (t : String) :
    ∃ m, m ∈ mealTypeTags ∧ mealAdd ts t = addTag ts m := by
  unfold mealAdd
  by_cases h1 : anyKwIn t dessertKws = true
  · exact ⟨"dessert", by simp [mealTypeTags], by rw [if_pos h1]⟩
  · rw [if_neg h1]
    by_cases h2 : anyKwIn t breakfastKws = true
    · exact ⟨"breakfast", by simp [mealTypeTags], by rw [if_pos h2]⟩
    · rw [if_neg h2]
      by_cases h3 : anyKwIn t appetizerKws = true
      · exact ⟨"appetizer", by simp [mealTypeTags], by rw [if_pos h3]⟩
      · rw [if_neg h3]
        by_cases h4 : anyKwIn t sideKws = true
        · exact ⟨"side dish", by simp [mealTypeTags], by rw [if_pos h4]⟩
        · rw [if_neg h4]
          exact ⟨"dinner", by simp [mealTypeTags], rfl⟩

theorem mealAdd_dinner (ts : List String) (t : String) (h : mealKwHit t = false) :
    mealAdd ts t = addTag ts "dinner" := by
  simp only [mealKwHit, Bool.or_eq_false_iff] at h
  unfold mealAdd
  rw [if_neg (by simp [h.1.1.1]), if_neg (by simp [h.1.1.2]), if_neg (by simp [h.1.2]),
    if_neg (by simp [h.2])]

theorem mem_ite_addTag (c : Prop) [Decidable c] (ts : List String) (n a : String) (h : a ≠ n) :
    (a ∈ if c then addTag ts n else ts) ↔ a ∈ ts := by
  split
  · rw [mem_addTag]
    simp [h]
  · exact Iff.rfl

theorem mem_ite_addTag_of_mem (c : Prop) [Decidable c] (ts : List String) (n a : String)
    (h : a ∈ ts) : a ∈ (if c then addTag ts n else ts) := by
  split
  · exact (mem_addTag _ _ _).mpr (Or.inl h)
  · exact h

theorem mem_extraTags_of_mem (ts : List String) (t a : String) (h : a ∈ ts) :
    a ∈ extraTags ts t :=
  mem_ite_addTag_of_mem _ _ _ _ (mem_ite_addTag_of_mem _ _ _ _ (mem_ite_addTag_of_mem _ _ _ _
    (mem_ite_addTag_of_mem _ _ _ _ (mem_ite_addTag_of_mem _ _ _ _
      (mem_ite_addTag_of_mem _ _ _ _ (mem_ite_addTag_of_mem _ _ _ _ h))))))

theorem mem_extraTags_iff (ts : List String) (t a : String)
    (h : a ∉ ["vegetarian", "vegan", "healthy", "comfort food", "quick", "spicy", "creamy"]) :
    a ∈ extraTags ts t ↔ a ∈ ts := by
  simp only [List.mem_cons, List.mem_singleton, not_or] at h
  obtain ⟨h1, h2, h3, h4, h5, h6, h7⟩ := h
  unfold extraTags
  rw [mem_ite_addTag _ _ _ _ (by simpa using h7), mem_ite_addTag _ _ _ _ (by simpa using h6),
    mem_ite_addTag _ _ _ _ (by simpa using h5), mem_ite_addTag _ _ _ _ (by simpa using h4),
    mem_ite_addTag _ _ _ _ (by simpa using h3), mem_ite_addTag _ _ _ _ (by simpa using h2),
    mem_ite_addTag _ _ _ _ (by simpa using h1)]

theorem mem_extraTags_vegetarian (ts : List String) (t : String) :
    "vegetarian" ∈ extraTags ts t
      ↔ ((anyKwIn t ["vegetarian", "veggie", "meatless"]
            && !hasStr ts "chicken" && !hasStr ts "beef") = true
          ∨ "vegetarian" ∈ ts) := by
  unfold extraTags
  rw [mem_ite_addTag _ _ _ _ (by decide), mem_ite_addTag _ _ _ _ (by decide),
    mem_ite_addTag _ _ _ _ (by decide), mem_ite_addTag _ _ _ _ (by decide),
    mem_ite_addTag _ _ _ _ (by decide), mem_ite_addTag _ _ _ _ (by decide)]
  by_cases hc : (anyKwIn t ["vegetarian", "veggie", "meatless"]
      && !hasStr ts "chicken" && !hasStr ts "beef") = true
  · rw [if_pos hc, mem_addTag]
    simp [hc]
  · rw [if_neg hc]
    have hc' : (anyKwIn t ["vegetarian", "veggie", "meatless"]
        && !hasStr ts "chicken" && !hasStr ts "beef") = false := by
      revert hc
      cases (anyKwIn t ["vegetarian", "veggie", "meatless"]
        && !hasStr ts "chicken" && !hasStr ts "beef") <;> simp
    simp [hc']

/-! ## Claims about tag generation -/

/-- C6 counterexample: the text "meatless pork" produces both the meat
protein tag `pork` and the tag `vegetarian` — a meat protein tag other
than chicken/beef does not suppress `vegetarian`. -/
theorem claim6_counterexample :
    "pork" ∈ generate_tags "meatless pork" [] [] ""
      ∧ "vegetarian" ∈ generate_tags "meatless pork" [] [] "" := by
  decide

/-- C6 (amended): `vegetarian` is suppressed only by the `chicken` and
`beef` protein tags: for every input whose generated tag set contains
`chicken` or `beef`, `vegetarian` is not in the set. The other meat
protein tags (pork, fish, seafood, turkey, lamb) do not suppress it. -/
theorem claim6_vegetarian_suppressed (name : String) (ing ins : List String) (text : String)
    (h : "chicken" ∈ generate_tags name ing ins text
        ∨ "beef" ∈ generate_tags name ing ins text) :
    "vegetarian" ∉ generate_tags name ing ins text := by
  intro hveg
  have hgen : generate_tags name ing ins text
      = sortStrs (extraTags
          (mealAdd (baseTags (tagSourceText name ing ins text)) (tagSourceText name ing ins text))
          (tagSourceText name ing ins text)) := rfl
  rw [hgen, mem_sortStrs, mem_extraTags_vegetarian] at hveg
  have hprot : ∀ p : String, p ∈ ["chicken", "beef"] →
      p ∈ generate_tags name ing ins text →
      p ∈ mealAdd (baseTags (tagSourceText name ing ins text))
        (tagSourceText name ing ins text) := by
    intro p hp hmem
    rw [hgen, mem_sortStrs] at hmem
    refine (mem_extraTags_iff _ _ _ ?_).mp hmem
    fin_cases hp <;> decide
  rcases hveg with hc | hmem
  · rcases h with h | h
    · have h4 := hprot "chicken" (by simp) h
      rw [(hasStr_iff _ _).mpr h4] at hc
      simp at hc
    · have h4 := hprot "beef" (by simp) h
      rw [(hasStr_iff _ _).mpr h4] at hc
      simp at hc
  · obtain ⟨m, hm, heq⟩ := mealAdd_cases (baseTags (tagSourceText name ing ins text))
      (tagSourceText name ing ins text)
    rw [heq, mem_addTag] at hmem
    rcases hmem with hmem | hvm
    · exact vegetarian_not_mem_baseTags _ hmem
    · rw [← hvm] at hm
      simp [mealTypeTags] at hm

/-- Witness for C6 at a concrete input whose tags contain `chicken`. -/
theorem claim6_vegetarian_suppressed_witness :
    ("chicken" ∈ generate_tags "chicken veggie" [] [] ""
        ∨ "beef" ∈ generate_tags "chicken veggie" [] [] "")
      ∧ "vegetarian" ∉ generate_tags "chicken veggie" [] [] "" :=
  ⟨Or.inl (by decide),
   claim6_vegetarian_suppressed "chicken veggie" [] [] "" (Or.inl (by decide))⟩

/-- C10: the generated tag set always contains exactly one meal-type tag
(`dessert`, `breakfast`, `appetizer`, `side dish` or `dinner`, with
`dinner` whenever no meal-type keyword matches), so every produced tag
list is non-empty. -/
theorem claim10_meal_tag (name : String) (ing ins : List String) (text : String) :
    (∃! m, m ∈ mealTypeTags ∧ m ∈ generate_tags name ing ins text)
      ∧ generate_tags name ing ins text ≠ []
      ∧ (mealKwHit (tagSourceText name ing ins text)
          || hasStr (generate_tags name ing ins text) "dinner") = true := by
  have hgen : generate_tags name ing ins text
      = sortStrs (extraTags
          (mealAdd (baseTags (tagSourceText name ing ins text)) (tagSourceText name ing ins text))
          (tagSourceText name ing ins text)) := rfl
  obtain ⟨m, hm, heq⟩ := mealAdd_cases (baseTags (tagSourceText name ing ins text))
    (tagSourceText name ing ins text)
  have hmem_m : m ∈ generate_tags name ing ins text := by
    rw [hgen, mem_sortStrs]
    exact mem_extraTags_of_mem _ _ _ (by rw [heq, mem_addTag]; exact Or.inr rfl)
  have huniq : ∀ y, y ∈ mealTypeTags ∧ y ∈ generate_tags name ing ins text → y = m := by
    rintro y ⟨hy1, hy2⟩
    rw [hgen, mem_sortStrs] at hy2
    have hy3 : y ∈ mealAdd (baseTags (tagSourceText name ing ins text))
        (tagSourceText name ing ins text) := by
      refine (mem_extraTags_iff _ _ _ ?_).mp hy2
      simp only [mealTypeTags] at hy1
      fin_cases hy1 <;> decide
    rw [heq, mem_addTag] at hy3
    rcases hy3 with hy4 | rfl
    · exact absurd hy4 (meal_not_mem_baseTags _ y hy1)
    · rfl
  refine ⟨⟨m, ⟨hm, hmem_m⟩, huniq⟩, List.ne_nil_of_mem hmem_m, ?_⟩
  by_cases hk : mealKwHit (tagSourceText name ing ins text) = true
  · simp [hk]
  · have hk' : mealKwHit (tagSourceText name ing ins text) = false := by
      revert hk
      cases mealKwHit (tagSourceText name ing ins text) <;> simp
    have hd := mealAdd_dinner (baseTags (tagSourceText name ing ins text)) _ hk'
    have hdin : "dinner" ∈ generate_tags name ing ins text := by
      rw [hgen, mem_sortStrs]
      exact mem_extraTags_of_mem _ _ _ (by rw [hd, mem_addTag]; exact Or.inr rfl)
    simp [(hasStr_iff _ _).mpr hdin]

/-! ## Ingredient-scan lemmas -/

/-- A line that the primary ingredient scan treats as a plain ingredient
row: stripped, non-empty, no markup or table or group-label markers, no
bullet or number prefix, at least 3 characters, none of the noise
substrings, and no "RECIPE FOR:" marker. -/
def plainIngLine (x : String) : Bool :=
  (sTrim x == x)
    && !ingHeading (sLower x)
    && !instrHeading (sLower x)
    && !sIsEmpty x
    && !sw x "!["
    && !(sw x "|" && sContains x "---")
    && !(sw x "###" || (ew x ":" && decide (sLen x < 50)))
    && (stripNum (stripBullet x) == x)
    && !decide (sLen x < 3)
    && !sw x "#"
    && !(sContains (sLower x) "cook mode" || sContains (sLower x) "screen")
    && !sContains x "|"
    && !sContains (sUpper x) "RECIPE FOR:"

theorem ingPrimary_plain (st : IngState) (x : String) (rest : List String)
    (h : plainIngLine x = true) :
    ingPrimary st true (x :: rest) = ingPrimary (routeItem st x) true rest := by
  simp only [plainIngLine, Bool.and_eq_true, Bool.not_eq_true', beq_iff_eq] at h
  obtain ⟨⟨⟨⟨⟨⟨⟨⟨⟨⟨⟨⟨h1, h2⟩, h3⟩, h4⟩, h5⟩, h6⟩, h7⟩, h8⟩, h9⟩, h10⟩, h11⟩, h12⟩, h13⟩ := h
  simp only [ingPrimary, h1, h2, h3, h4, h5, h6, h7, h8, h9, h10, h11, h12, h13]
  simp

theorem plainIngLine_no_marker (x : String) (h : plainIngLine x = true) :
    sContains (sUpper x) "RECIPE FOR:" = false := by
  simp only [plainIngLine, Bool.and_eq_true, Bool.not_eq_true', beq_iff_eq] at h
  exact h.2

theorem fbLoop_noop (lines : List String) : ∀ (st : IngState) (i : Nat),
    lines.all (fun l => !sContains (sUpper l) "RECIPE FOR:") = true →
    fbLoop st false i lines = st := by
  induction lines with
  | nil => intro st i _; rfl
  | cons line rest ih =>
    intro st i h
    simp only [List.all_cons, Bool.and_eq_true, Bool.not_eq_true'] at h
    have hstep : fbLoop st false i (line :: rest)
        = if sContains (sUpper line) "RECIPE FOR:" then fbLoop st true (i + 1) rest
          else fbLoop st false (i + 1) rest := rfl
    rw [hstep, if_neg (by simp [h.1]),
      ih st (i + 1) (by simp only [List.all_eq_true] at h ⊢; exact fun l hl => h.2 l hl)]

theorem claim8_template (s1 s2 f1 f2 : String) (rest : List String)
    (h1 : plainIngLine s1 = true) (h2 : plainIngLine s2 = true)
    (h3 : plainIngLine f1 = true) (h4 : plainIngLine f2 = true)
    (hrest : rest.all (fun l => !sContains (sUpper l) "RECIPE FOR:") = true) :
    extractIngredientsLines
        ("## Ingredients" :: "### Sauce" :: s1 :: s2 :: "### Filling" :: f1 :: f2
          :: "## Instructions" :: rest)
      = ([], some [("Sauce", [s1, s2]), ("Filling", [f1, f2])]) := by
  have e1 : ingPrimary ⟨[], [], ""⟩ false
      ("## Ingredients" :: "### Sauce" :: s1 :: s2 :: "### Filling" :: f1 :: f2
        :: "## Instructions" :: rest)
      = ingPrimary ⟨[], [("Sauce", [])], "Sauce"⟩ true
          (s1 :: s2 :: "### Filling" :: f1 :: f2 :: "## Instructions" :: rest) := rfl
  have e2 := ingPrimary_plain ⟨[], [("Sauce", [])], "Sauce"⟩ s1
      (s2 :: "### Filling" :: f1 :: f2 :: "## Instructions" :: rest) h1
  have e2' : routeItem ⟨[], [("Sauce", [])], "Sauce"⟩ s1
      = ⟨[], [("Sauce", [s1])], "Sauce"⟩ := rfl
  have e3 := ingPrimary_plain ⟨[], [("Sauce", [s1])], "Sauce"⟩ s2
      ("### Filling" :: f1 :: f2 :: "## Instructions" :: rest) h2
  have e3' : routeItem ⟨[], [("Sauce", [s1])], "Sauce"⟩ s2
      = ⟨[], [("Sauce", [s1, s2])], "Sauce"⟩ := rfl
  have e4 : ingPrimary ⟨[], [("Sauce", [s1, s2])], "Sauce"⟩ true
      ("### Filling" :: f1 :: f2 :: "## Instructions" :: rest)
      = ingPrimary ⟨[], [("Sauce", [s1, s2]), ("Filling", [])], "Filling"⟩ true
          (f1 :: f2 :: "## Instructions" :: rest) := rfl
  have e5 := ingPrimary_plain ⟨[], [("Sauce", [s1, s2]), ("Filling", [])], "Filling"⟩ f1
      (f2 :: "## Instructions" :: rest) h3
  have e5' : routeItem ⟨[], [("Sauce", [s1, s2]), ("Filling", [])], "Filling"⟩ f1
      = ⟨[], [("Sauce", [s1, s2]), ("Filling", [f1])], "Filling"⟩ := rfl
  have e6 := ingPrimary_plain ⟨[], [("Sauce", [s1, s2]), ("Filling", [f1])], "Filling"⟩ f2
      ("## Instructions" :: rest) h4
  have e6' : routeItem ⟨[], [("Sauce", [s1, s2]), ("Filling", [f1])], "Filling"⟩ f2
      = ⟨[], [("Sauce", [s1, s2]), ("Filling", [f1, f2])], "Filling"⟩ := rfl
  have e7 : ingPrimary ⟨[], [("Sauce", [s1, s2]), ("Filling", [f1, f2])], "Filling"⟩ true
      ("## Instructions" :: rest)
      = ⟨[], [("Sauce", [s1, s2]), ("Filling", [f1, f2])], "Filling"⟩ := rfl
  have eprim : ingPrimary ⟨[], [], ""⟩ false
      ("## Ingredients" :: "### Sauce" :: s1 :: s2 :: "### Filling" :: f1 :: f2
        :: "## Instructions" :: rest)
      = ⟨[], [("Sauce", [s1, s2]), ("Filling", [f1, f2])], "Filling"⟩ := by
    rw [e1, e2, e2', e3, e3', e4, e5, e5', e6, e6', e7]
  have hall : ("## Ingredients" :: "### Sauce" :: s1 :: s2 :: "### Filling" :: f1 :: f2
      :: "## Instructions" :: rest).all
      (fun l => !sContains (sUpper l) "RECIPE FOR:") = true := by
    simp only [List.all_cons, Bool.and_eq_true, Bool.not_eq_true']
    refine ⟨by decide, by decide, ?_, ?_, by decide, ?_, ?_, by decide, ?_⟩
    · exact plainIngLine_no_marker s1 h1
    · exact plainIngLine_no_marker s2 h2
    · exact plainIngLine_no_marker f1 h3
    · exact plainIngLine_no_marker f2 h4
    · exact hrest
  unfold extractIngredientsLines ingScanLines
  rw [eprim]
  simp only [List.isEmpty_nil, if_true]
  rw [fbLoop_noop _ _ _ hall]
  rfl

theorem ingFinalize_eq (st : IngState) :
    ingFinalize st
      = if 1 < st.groups.length then (st.ingredients, some st.groups)
        else (st.ingredients ++ (st.groups.map Prod.snd).flatten, none) := by
  unfold ingFinalize
  by_cases hg : 1 < st.groups.length
  · rw [if_pos (decide_eq_true hg), if_pos hg]
  · rw [if_neg (by simp [hg]), if_neg hg]
    cases he : st.groups.isEmpty
    · simp [he]
    · have hnil : st.groups = [] := List.isEmpty_iff.mp he
      simp [he, hnil]

/-! ## Claims about ingredient extraction -/

/-- C7 counterexample: a document whose primary scan puts two rows into a
sub-group (and none into the flat list) still runs the fallback strategy —
the fallback gate checks only the flat list — so the fallback-collected
row "1 cup sugar extra" pollutes the result. -/
theorem claim7_counterexample :
    (ingPrimary ⟨[], [], ""⟩ false (splitLines "## Ingredients\n### Sauce\n- 2 cups tomato puree\n- 1 tsp salt\n## Instructions\nRECIPE FOR: X\n1 cup sugar extra")).groups
        = [("Sauce", ["2 cups tomato puree", "1 tsp salt"])]
      ∧ extract_ingredients "## Ingredients\n### Sauce\n- 2 cups tomato puree\n- 1 tsp salt\n## Instructions\nRECIPE FOR: X\n1 cup sugar extra"
        = (["1 cup sugar extra", "2 cups tomato puree", "1 tsp salt"], none)
      ∧ extract_ingredients "## Ingredients\n### Sauce\n- 2 cups tomato puree\n- 1 tsp salt\n## Instructions\nRECIPE FOR: X\n1 cup sugar extra"
        ≠ ingFinalize (ingPrimary ⟨[], [], ""⟩ false (splitLines "## Ingredients\n### Sauce\n- 2 cups tomato puree\n- 1 tsp salt\n## Instructions\nRECIPE FOR: X\n1 cup sugar extra")) := by
  decide

/-- C7 (amended): the fallback "RECIPE FOR:" strategy is skipped exactly
when the primary scan's flat ingredient list is non-empty; ingredients
collected only into sub-groups do not suppress it. -/
theorem claim7_fallback_gate (text : String)
    (h : (ingPrimary ⟨[], [], ""⟩ false (splitLines text)).ingredients ≠ []) :
    extract_ingredients text = ingFinalize (ingPrimary ⟨[], [], ""⟩ false (splitLines text)) := by
  have hb : (ingPrimary ⟨[], [], ""⟩ false (splitLines text)).ingredients.isEmpty = false := by
    cases hi : (ingPrimary ⟨[], [], ""⟩ false (splitLines text)).ingredients.isEmpty
    · rfl
    · exact absurd (List.isEmpty_iff.mp hi) h
  unfold extract_ingredients extractIngredientsLines ingScanLines
  simp [hb]

/-- Witness for C7 at a document whose primary scan fills the flat list. -/
theorem claim7_fallback_gate_witness :
    (ingPrimary ⟨[], [], ""⟩ false (splitLines "## Ingredients\n- 2 cups flour")).ingredients ≠ []
      ∧ extract_ingredients "## Ingredients\n- 2 cups flour"
        = ingFinalize
            (ingPrimary ⟨[], [], ""⟩ false (splitLines "## Ingredients\n- 2 cups flour")) :=
  ⟨by decide, claim7_fallback_gate "## Ingredients\n- 2 cups flour" (by decide)⟩

/-- C8 counterexample: a document whose ingredients section opens the
sub-group "Sauce" and immediately the sub-group "Filling" surfaces the
group mapping although only one group is populated — the group-count
branch counts created keys, not populated ones. -/
theorem claim8_counterexample :
    extract_ingredients "## Ingredients\n### Sauce\n### Filling\n- 2 cups flour\n- 1 tsp salt"
        = ([], some [("Sauce", []), ("Filling", ["2 cups flour", "1 tsp salt"])])
      ∧ ([("Sauce", ([] : List String)), ("Filling", ["2 cups flour", "1 tsp salt"])].filter
          (fun p => !p.2.isEmpty)).length = 1 := by
  decide

/-- C8 (amended): a document whose ingredients section is "### Sauce" with
two plain ingredient rows then "### Filling" with two plain ingredient
rows yields exactly the two groups, each with its own two rows, and an
empty flat list; in general the group mapping is surfaced exactly when
two or more distinct group labels were created (even if one ends up
empty), and a single created group is flattened back into the flat list
with no mapping returned. -/
theorem claim8_grouping :
    (∀ s1 s2 f1 f2 : String, ∀ rest : List String,
        plainIngLine s1 = true → plainIngLine s2 = true →
        plainIngLine f1 = true → plainIngLine f2 = true →
        rest.all (fun l => !sContains (sUpper l) "RECIPE FOR:") = true →
        extractIngredientsLines
            ("## Ingredients" :: "### Sauce" :: s1 :: s2 :: "### Filling" :: f1 :: f2
              :: "## Instructions" :: rest)
          = ([], some [("Sauce", [s1, s2]), ("Filling", [f1, f2])]))
      ∧ ∀ text : String,
          extract_ingredients text
            = if 1 < (ingScanLines (splitLines text)).groups.length then
                ((ingScanLines (splitLines text)).ingredients,
                  some (ingScanLines (splitLines text)).groups)
              else
                ((ingScanLines (splitLines text)).ingredients
                    ++ ((ingScanLines (splitLines text)).groups.map Prod.snd).flatten,
                  none) := by
  constructor
  · exact claim8_template
  · intro text
    exact ingFinalize_eq (ingScanLines (splitLines text))

/-- Witness for C8: the two-group template at concrete rows, and the
group-count rule at a concrete single-group document, whose two rows are
flattened back into the flat list with no mapping returned. -/
theorem claim8_grouping_witness :
    extractIngredientsLines
        ["## Ingredients", "### Sauce", "2 cups water", "1 tsp salt", "### Filling",
         "3 cups rice", "2 tsp oil", "## Instructions"]
        = ([], some [("Sauce", ["2 cups water", "1 tsp salt"]),
            ("Filling", ["3 cups rice", "2 tsp oil"])])
      ∧ extract_ingredients "## Ingredients\n### Sauce\n- 2 cups flour\n- 1 tsp salt"
          = (if 1 < (ingScanLines
                (splitLines "## Ingredients\n### Sauce\n- 2 cups flour\n- 1 tsp salt")).groups.length then
              ((ingScanLines
                  (splitLines "## Ingredients\n### Sauce\n- 2 cups flour\n- 1 tsp salt")).ingredients,
                some (ingScanLines
                  (splitLines "## Ingredients\n### Sauce\n- 2 cups flour\n- 1 tsp salt")).groups)
            else
              ((ingScanLines
                  (splitLines "## Ingredients\n### Sauce\n- 2 cups flour\n- 1 tsp salt")).ingredients
                  ++ ((ingScanLines
                    (splitLines "## Ingredients\n### Sauce\n- 2 cups flour\n- 1 tsp salt")).groups.map
                      Prod.snd).flatten,
                none))
      ∧ extract_ingredients "## Ingredients\n### Sauce\n- 2 cups flour\n- 1 tsp salt"
          = (["2 cups flour", "1 tsp salt"], none) :=
  ⟨claim8_grouping.1 "2 cups water" "1 tsp salt" "3 cups rice" "2 tsp oil" []
      (by decide) (by decide) (by decide) (by decide) (by decide),
   claim8_grouping.2 "## Ingredients\n### Sauce\n- 2 cups flour\n- 1 tsp salt",
   by decide⟩

/-! ## Record-shape lemmas -/

/-- Python truthiness of the optional group dict. -/
def groupsTruthy : Option (List (String × List String)) → Bool
  | some gs => !gs.isEmpty
  | none => false

/-- Python truthiness of the optional nutrition dict. -/
def nutrTruthy : Option (List (String × String)) → Bool
  | some xs => !xs.isEmpty
  | none => false

/-- Modelled from the spec: the field names of the StructuredRecipe shape
of the specification's data model, with the three time fields as their
record keys. Used only to compare the produced records against the
specified shape. -/
def structuredRecipeShapeKeys : List String :=
  ["name", "source", "description", "prep_time", "cook_time", "total_time", "servings",
   "ingredients", "ingredient_groups", "instructions", "notes", "nutrition", "category", "tags"]

theorem hasKey_append (a b : List (String × JVal)) (k : String) :
    hasKey (a ++ b) k = (hasKey a k || hasKey b k) := by
  simp [hasKey, List.any_append]

theorem hasKey_cons (p : String × JVal) (r : List (String × JVal)) (k : String) :
    hasKey (p :: r) k = ((p.1 == k) || hasKey r k) := by
  simp [hasKey]

theorem hasKey_nil (k : String) : hasKey [] k = false := rfl

theorem hasKey_optField (key : String) (v : Option String) (k : String) :
    hasKey (optField key v) k = ((key == k) && optTruthy v) := by
  cases v with
  | none => simp [optField, optTruthy, hasKey]
  | some s =>
    by_cases hs : sIsEmpty s = true
    · simp [optField, optTruthy, hasKey, hs]
    · have hs' : sIsEmpty s = false := by revert hs; cases sIsEmpty s <;> simp
      simp [optField, optTruthy, hasKey, hs']

theorem hasKey_timeField (key : String) (v : Option String) (k : String) :
    hasKey (timeField key v) k = ((key == k) && v.isSome) := by
  cases v <;> simp [timeField, hasKey]

theorem hasKey_listField (key : String) (v : List String) (k : String) :
    hasKey (listField key v) k = ((key == k) && !v.isEmpty) := by
  by_cases hv : v.isEmpty = true
  · simp [listField, hasKey, hv]
  · have hv' : v.isEmpty = false := by revert hv; cases v.isEmpty <;> simp
    simp [listField, hasKey, hv']

theorem hasKey_groupField (v : Option (List (String × List String))) (k : String) :
    hasKey (groupField v) k = (("ingredient_groups" == k) && groupsTruthy v) := by
  cases v with
  | none => simp [groupField, groupsTruthy, hasKey]
  | some gs =>
    by_cases hg : gs.isEmpty = true
    · simp [groupField, groupsTruthy, hasKey, hg]
    · have hg' : gs.isEmpty = false := by revert hg; cases gs.isEmpty <;> simp
      simp [groupField, groupsTruthy, hasKey, hg']

theorem hasKey_nutrField (v : Option (List (String × String))) (k : String) :
    hasKey (nutrField v) k = (("nutrition" == k) && nutrTruthy v) := by
  cases v with
  | none => simp [nutrField, nutrTruthy, hasKey]
  | some xs =>
    by_cases hx : xs.isEmpty = true
    · simp [nutrField, nutrTruthy, hasKey, hx]
    · have hx' : xs.isEmpty = false := by revert hx; cases xs.isEmpty <;> simp
      simp [nutrField, nutrTruthy, hasKey, hx']

theorem lookupKey_append (a b : List (String × JVal)) (k : String) :
    lookupKey (a ++ b) k = (lookupKey a k).or (lookupKey b k) := by
  induction a with
  | nil => rfl
  | cons p r ih =>
    by_cases hp : (p.1 == k) = true
    · simp [lookupKey, hp]
    · have hp' : (p.1 == k) = false := by revert hp; cases p.1 == k <;> simp
      simp [lookupKey, hp', ih]

theorem lookupKey_optField_ne (key : String) (v : Option String) (k : String)
    (h : (key == k) = false) : lookupKey (optField key v) k = none := by
  cases v with
  | none => rfl
  | some s =>
    by_cases hs : sIsEmpty s = true
    · simp [optField, hs, lookupKey]
    · have hs' : sIsEmpty s = false := by revert hs; cases sIsEmpty s <;> simp
      simp [optField, hs', lookupKey, h]

theorem lookupKey_timeField_ne (key : String) (v : Option String) (k : String)
    (h : (key == k) = false) : lookupKey (timeField key v) k = none := by
  cases v with
  | none => rfl
  | some s => simp [timeField, lookupKey, h]

theorem lookupKey_listField_ne (key : String) (v : List String) (k : String)
    (h : (key == k) = false) : lookupKey (listField key v) k = none := by
  by_cases hv : v.isEmpty = true
  · simp [listField, hv, lookupKey]
  · have hv' : v.isEmpty = false := by revert hv; cases v.isEmpty <;> simp
    simp [listField, hv', lookupKey, h]

theorem lookupKey_groupField_ne (v : Option (List (String × List String))) (k : String)
    (h : (("ingredient_groups" : String) == k) = false) : lookupKey (groupField v) k = none := by
  cases v with
  | none => rfl
  | some gs =>
    by_cases hg : gs.isEmpty = true
    · simp [groupField, hg, lookupKey]
    · have hg' : gs.isEmpty = false := by revert hg; cases gs.isEmpty <;> simp
      simp [groupField, hg', lookupKey, h]

theorem lookupKey_nutrField_ne (v : Option (List (String × String))) (k : String)
    (h : (("nutrition" : String) == k) = false) : lookupKey (nutrField v) k = none := by
  cases v with
  | none => rfl
  | some xs =>
    by_cases hx : xs.isEmpty = true
    · simp [nutrField, hx, lookupKey]
    · have hx' : xs.isEmpty = false := by revert hx; cases xs.isEmpty <;> simp
      simp [nutrField, hx', lookupKey, h]

theorem keysOk_optField (key : String) (v : Option String) (P : String → Bool)
    (h : P key = true) : ((optField key v).map Prod.fst).all P = true := by
  cases v with
  | none => rfl
  | some s =>
    by_cases hs : sIsEmpty s = true
    · simp [optField, hs]
    · have hs' : sIsEmpty s = false := by revert hs; cases sIsEmpty s <;> simp
      simp [optField, hs', h]

theorem keysOk_timeField (key : String) (v : Option String) (P : String → Bool)
    (h : P key = true) : ((timeField key v).map Prod.fst).all P = true := by
  cases v with
  | none => rfl
  | some s => simp [timeField, h]

theorem keysOk_listField (key : String) (v : List String) (P : String → Bool)
    (h : P key = true) : ((listField key v).map Prod.fst).all P = true := by
  by_cases hv : v.isEmpty = true
  · simp [listField, hv]
  · have hv' : v.isEmpty = false := by revert hv; cases v.isEmpty <;> simp
    simp [listField, hv', h]

theorem keysOk_groupField (v : Option (List (String × List String))) (P : String → Bool)
    (h : P "ingredient_groups" = true) : ((groupField v).map Prod.fst).all P = true := by
  cases v with
  | none => rfl
  | some gs =>
    by_cases hg : gs.isEmpty = true
    · simp [groupField, hg]
    · have hg' : gs.isEmpty = false := by revert hg; cases gs.isEmpty <;> simp
      simp [groupField, hg', h]

theorem keysOk_nutrField (v : Option (List (String × String))) (P : String → Bool)
    (h : P "nutrition" = true) : ((nutrField v).map Prod.fst).all P = true := by
  cases v with
  | none => rfl
  | some xs =>
    by_cases hx : xs.isEmpty = true
    · simp [nutrField, hx]
    · have hx' : xs.isEmpty = false := by revert hx; cases xs.isEmpty <;> simp
      simp [nutrField, hx', h]

/-! ## Claims about record assembly -/

/-- C2: building the structured record is total for every text and
filename — the record is always produced with its required keys — and
every optional sub-extractor that finds no (truthy) match yields an absent
key rather than failing the record: each optional key's presence equals
exactly the truthiness of its sub-extractor's result. -/
theorem claim2_no_failure (text filename : String) :
    hasKey (process_recipe text filename) "name" = true
      ∧ hasKey (process_recipe text filename) "ingredients" = true
      ∧ hasKey (process_recipe text filename) "instructions" = true
      ∧ hasKey (process_recipe text filename) "category" = true
      ∧ hasKey (process_recipe text filename) "tags" = true
      ∧ hasKey (process_recipe text filename) "source" = optTruthy (extract_source text)
      ∧ hasKey (process_recipe text filename) "description" = optTruthy (extract_description text)
      ∧ hasKey (process_recipe text filename) "prep_time" = (extract_times text).prep.isSome
      ∧ hasKey (process_recipe text filename) "cook_time" = (extract_times text).cook.isSome
      ∧ hasKey (process_recipe text filename) "total_time" = (extract_times text).total.isSome
      ∧ hasKey (process_recipe text filename) "servings" = optTruthy (extract_servings text)
      ∧ hasKey (process_recipe text filename) "ingredient_groups"
          = groupsTruthy (extract_ingredients text).2
      ∧ hasKey (process_recipe text filename) "notes" = !(extract_notes text).isEmpty
      ∧ hasKey (process_recipe text filename) "nutrition"
          = nutrTruthy (extract_nutrition text) := by
  refine ⟨?_, ?_, ?_, ?_, ?_, ?_, ?_, ?_, ?_, ?_, ?_, ?_, ?_, ?_⟩ <;>
    simp +decide [process_recipe, timesFields, hasKey_append, hasKey_cons, hasKey_nil,
      hasKey_optField, hasKey_timeField, hasKey_listField, hasKey_groupField, hasKey_nutrField]

/-- C3 counterexample: every produced record carries the key
`source_file`, which is not part of the StructuredRecipe shape — the
"no fields beyond the shape" part of the claim fails. -/
theorem claim3_counterexample :
    hasKey (process_recipe "" "f.txt") "source_file" = true
      ∧ structuredRecipeShapeKeys.contains "source_file" = false := by
  decide

/-- C3 (amended): every record conforms to the StructuredRecipe shape
extended by the bookkeeping key `source_file` (always present): the keys
`ingredients` and `instructions` are always present as (possibly empty)
lists, `tags` is always present, `category` is always present and null,
every optional field is omitted exactly when its extractor finds nothing
truthy, and no key outside the shape plus `source_file` occurs. -/
theorem claim3_record_shape (text filename : String) :
    lookupKey (process_recipe text filename) "category" = some JVal.null
      ∧ lookupKey (process_recipe text filename) "ingredients"
          = some (JVal.list (extract_ingredients text).1)
      ∧ lookupKey (process_recipe text filename) "instructions"
          = some (JVal.list (extract_instructions text))
      ∧ lookupKey (process_recipe text filename) "tags"
          = some (JVal.list (generate_tags (extract_name text filename)
              (extract_ingredients text).1 (extract_instructions text) text))
      ∧ hasKey (process_recipe text filename) "source_file" = true
      ∧ ((process_recipe text filename).map Prod.fst).all
          (fun k => (structuredRecipeShapeKeys ++ ["source_file"]).contains k) = true
      ∧ hasKey (process_recipe text filename) "source" = optTruthy (extract_source text)
      ∧ hasKey (process_recipe text filename) "description" = optTruthy (extract_description text)
      ∧ hasKey (process_recipe text filename) "prep_time" = (extract_times text).prep.isSome
      ∧ hasKey (process_recipe text filename) "cook_time" = (extract_times text).cook.isSome
      ∧ hasKey (process_recipe text filename) "total_time" = (extract_times text).total.isSome
      ∧ hasKey (process_recipe text filename) "servings" = optTruthy (extract_servings text)
      ∧ hasKey (process_recipe text filename) "ingredient_groups"
          = groupsTruthy (extract_ingredients text).2
      ∧ hasKey (process_recipe text filename) "notes" = !(extract_notes text).isEmpty
      ∧ hasKey (process_recipe text filename) "nutrition"
          = nutrTruthy (extract_nutrition text) := by
  refine ⟨?_, ?_, ?_, ?_, ?_, ?_, ?_, ?_, ?_, ?_, ?_, ?_, ?_, ?_, ?_⟩ <;>
    simp +decide [process_recipe, timesFields, lookupKey_append, lookupKey, lookupKey_optField_ne,
      lookupKey_timeField_ne, lookupKey_listField_ne, lookupKey_groupField_ne,
      lookupKey_nutrField_ne, List.map_append, List.all_append, keysOk_optField,
      keysOk_timeField, keysOk_listField, keysOk_groupField, keysOk_nutrField,
      hasKey_append, hasKey_cons, hasKey_nil, hasKey_optField, hasKey_timeField,
      hasKey_listField, hasKey_groupField, hasKey_nutrField]
